import Mathlib

/-!
Verification development for the Azure / OCI provider-adapter code of the
cluster-autoscaler repository: node-template construction
(`buildNodeFromTemplate`, `processVMSSTemplate`, `processVMPoolTemplate`,
`buildGenericLabels`, `buildNodeTemplateFromVMSS`), taint parsing
(`constructTaintFromString`, `extractTaintsFromSpecString`,
`extractTaintsFromTags`), and the generated OCI SDK enum validation code.

Go strings are modelled as Lean `String`; Go `map[string]T` values are
modelled as association lists in a fixed iteration order (Go map iteration
order is unspecified; the claims settled here do not depend on it).
Go `int64` arithmetic that could overflow is modelled with an explicit
two's-complement wrap (`wrap64`).  Pointer-typed fields are modelled with
`Option`.
-/

namespace Autoscaler

/-! ## Generic list/string utilities modelling Go's `strings` package -/

/-- Membership-ordered first match: models a Go `map` read with default. -/
def mapGetD (l : List (String × String)) (k : String) (d : String) : String :=
  match l with
  | [] => d
  | (k', v') :: rest => if k' = k then v' else mapGetD rest k d

/-- Models a Go `map` assignment `m[k] = v` on an association list kept in
insertion order: replaces the value at an existing key, else appends. -/
def mapSet (l : List (String × String)) (k v : String) : List (String × String) :=
  match l with
  | [] => [(k, v)]
  | (k', v') :: rest => if k' = k then (k, v) :: rest else (k', v') :: mapSet rest k v

/-- Same as `mapSet` for integer-valued resource lists. -/
def rlSet (l : List (String × Int)) (k : String) (v : Int) : List (String × Int) :=
  match l with
  | [] => [(k, v)]
  | (k', v') :: rest => if k' = k then (k, v) :: rest else (k', v') :: rlSet rest k v

/-- Go `map` read on an integer-valued resource list. -/
def rlGet (l : List (String × Int)) (k : String) : Option Int :=
  match l with
  | [] => none
  | (k', v') :: rest => if k' = k then some v' else rlGet rest k

/-- Boolean list-prefix test on characters. -/
def isPre : List Char → List Char → Bool
  | [], _ => true
  | _ :: _, [] => false
  | x :: xs, y :: ys => x = y && isPre xs ys

/-- Boolean substring containment on character lists. -/
def containsSub (pat : List Char) : List Char → Bool
  | [] => pat.isEmpty
  | x :: xs => isPre pat (x :: xs) || containsSub pat xs

/-- Models Go `strings.Split(s, sep)` for a single-character separator. -/
def splitOnChar (c : Char) : List Char → List (List Char)
  | [] => [[]]
  | x :: xs =>
    if x = c then [] :: splitOnChar c xs
    else
      match splitOnChar c xs with
      | [] => [[x]]
      | y :: ys => (x :: y) :: ys

/-- Models Go `strings.Join(l, sep)` for a single-character separator. -/
def joinChar (c : Char) : List (List Char) → List Char
  | [] => []
  | [p] => p
  | p :: q :: rest => p ++ c :: joinChar c (q :: rest)

/-- Go `strings.Split` on strings, single-character separator. -/
def goSplit (c : Char) (s : String) : List String :=
  (splitOnChar c s.data).map (fun l => ⟨l⟩)

/-- Go `strings.Join` on strings, single-character separator. -/
def goJoin (c : Char) (l : List String) : String :=
  ⟨joinChar c (l.map String.data)⟩

/-- Models Go `strings.Split(s, sep)` for a general (multi-character)
separator, at the character-list level.  Go returns the list of segments
between all occurrences of `sep`. -/
def splitOnSub (sep : List Char) : List Char → List (List Char)
  | [] => [[]]
  | x :: xs =>
    if isPre sep (x :: xs) then
      [] :: splitOnSub sep (xs.drop (sep.length - 1))
    else
      match splitOnSub sep xs with
      | [] => [[x]]
      | y :: ys => (x :: y) :: ys
  termination_by l => l.length
  decreasing_by
    · simp only [List.length_cons]
      have := List.length_drop (sep.length - 1) xs
      omega
    · simp

/-- Go `strings.Split(s, sep)`: with an empty separator Go splits into
individual characters. -/
def goSplitStr (sep : String) (s : String) : List String :=
  if sep.data = [] then s.data.map (fun ch => ⟨[ch]⟩)
  else (splitOnSub sep.data s.data).map (fun l => ⟨l⟩)

/-- Models Go `strings.Replace(s, old, new, -1)` (replace all occurrences)
at the character-list level.  `old` is assumed non-empty at all call sites. -/
def replaceAllSub (pat repl : List Char) : List Char → List Char
  | [] => []
  | x :: xs =>
    if isPre pat (x :: xs) then
      repl ++ replaceAllSub pat repl (xs.drop (pat.length - 1))
    else
      x :: replaceAllSub pat repl xs
  termination_by l => l.length
  decreasing_by
    · simp only [List.length_cons]
      have := List.length_drop (pat.length - 1) xs
      omega
    · simp

/-- Go `strings.Replace(s, old, new, -1)` on strings. -/
def goReplaceAll (pat repl s : String) : String :=
  ⟨replaceAllSub pat.data repl.data s.data⟩

/-- Models Go `unicode`/`strings.ToLower` on a character (ASCII range; all
strings compared case-insensitively in this code are ASCII). -/
def goCharToLower (c : Char) : Char :=
  if 65 ≤ c.toNat ∧ c.toNat ≤ 90 then Char.ofNat (c.toNat + 32) else c

/-- Go `strings.ToLower`. -/
def goToLower (s : String) : String :=
  ⟨s.data.map goCharToLower⟩

/-- Two's-complement wrap of Go `int64` arithmetic. -/
def wrap64 (n : Int) : Int :=
  ((n + 2 ^ 63) % 2 ^ 64) - 2 ^ 63

theorem wrap64_eq {n : Int} (h0 : -(2 ^ 63) ≤ n) (h1 : n < 2 ^ 63) : wrap64 n = n := by
  unfold wrap64
  have hlo : (0 : Int) ≤ n + 2 ^ 63 := by omega
  have hhi : n + 2 ^ 63 < 2 ^ 64 := by omega
  rw [Int.emod_eq_of_lt hlo hhi]
  omega

/-! ## Taints: `constructTaintFromString` and friends (azure_template.go) -/

/-- `apiv1.Taint`: key, value and effect; `TaintEffect` is a string type in
the Kubernetes API, so the effect is kept as a string. -/
structure Taint where
  key : String
  value : String
  effect : String
  deriving DecidableEq, Repr

/-- The three recognized taint-effect names from the regular expression
`(.*):(?:NoSchedule|NoExecute|PreferNoSchedule)`. -/
def allowedTaintEffects : List String := ["NoSchedule", "NoExecute", "PreferNoSchedule"]

/-- Models `r.MatchString(v)` for the unanchored Go regular expression
`(.*):(?:NoSchedule|NoExecute|PreferNoSchedule)`: since the match is
unanchored and `(.*)` may be empty, it succeeds exactly when the string
contains one of the substrings `:NoSchedule`, `:NoExecute`,
`:PreferNoSchedule`. -/
def taintRegexMatches (v : List Char) : Bool :=
  containsSub (':' :: "NoSchedule".data) v ||
  containsSub (':' :: "NoExecute".data) v ||
  containsSub (':' :: "PreferNoSchedule".data) v

/-- Models Go `strings.SplitN(v, ":", 2)` followed by reading indices 0 and 1:
the part before the first colon and everything after it.  All call sites
guard with the taint regular expression, which guarantees a colon is
present. -/
def goSplitN2Colon (v : List Char) : List Char × List Char :=
  (v.takeWhile (fun ch => ch ≠ ':'), (v.dropWhile (fun ch => ch ≠ ':')).drop 1)

/-- `constructTaintFromString` from azure_template.go: splits on `=` into
exactly two parts, checks the value against the (unanchored) effect regular
expression, and splits the value at its first colon. -/
def constructTaintFromString (taintString : String) : Bool × Taint :=
  match goSplit '=' taintString with
  | [taintKey, taintValue] =>
    if taintRegexMatches taintValue.data then
      let values := goSplitN2Colon taintValue.data
      (true, { key := taintKey, value := ⟨values.1⟩, effect := ⟨values.2⟩ })
    else
      (false, { key := "", value := "", effect := "" })
  | _ => (false, { key := "", value := "", effect := "" })

/-- The comma-separated-segment loop of `extractTaintsFromSpecString`: the
`dedupMap` accumulator (`seen`) records every segment already visited
(valid or not) and repeated segments are skipped. -/
def extractTaintsAux : List String → List String → List Taint
  | [], _ => []
  | s :: rest, seen =>
    if s ∈ seen then extractTaintsAux rest seen
    else
      let vt := constructTaintFromString s
      if vt.1 then vt.2 :: extractTaintsAux rest (s :: seen)
      else extractTaintsAux rest (s :: seen)

/-- `extractTaintsFromSpecString` from azure_template.go. -/
def extractTaintsFromSpecString (taintsString : String) : List Taint :=
  extractTaintsAux (goSplit ',' taintsString) []

/-- First-occurrence deduplication with an accumulator of already-seen
segments (specification-side helper for claim C9). -/
def dedupFirstAux (seen : List String) : List String → List String
  | [] => []
  | x :: xs => if x ∈ seen then dedupFirstAux seen xs else x :: dedupFirstAux (x :: seen) xs

/-- Keep only the first occurrence of each element, in first-occurrence
order. -/
def dedupFirst (l : List String) : List String :=
  dedupFirstAux [] l

/-! ## Azure data model (azure_template.go) -/

/-- `compute.VirtualMachineScaleSetOSDisk` (the fields read by this code).
`DiskSizeGB` is a `*int32` in the Azure SDK; its value is an `Int` here with
the `int32` range carried as a hypothesis where it matters.
`diffDiskOption` models `DiffDiskSettings.Option` (compared against
`compute.Local`, the string `"Local"`); `storageAccountType` models
`ManagedDisk.StorageAccountType`; `none` sub-fields model nil pointers. -/
structure OSDisk where
  diffDiskOption : Option String
  storageAccountType : Option String
  diskSizeGB : Option Int
  deriving DecidableEq, Repr

/-- `VMPoolNodeTemplate` from azure_template.go.  `labels` models the
`map[string]*string` field (nil map as `none`, nil values as `none`). -/
structure VMPoolNodeTemplate where
  agentPoolName : String
  taints : List Taint
  labels : Option (List (String × Option String))
  osDiskType : Option String
  deriving DecidableEq, Repr

/-- `VMSSNodeTemplate` from azure_template.go. -/
structure VMSSNodeTemplate where
  inputLabels : List (String × String)
  inputTaints : String
  tags : List (String × Option String)
  osDisk : Option OSDisk
  deriving DecidableEq, Repr

/-- `NodeTemplate` from azure_template.go. -/
structure NodeTemplate where
  skuName : String
  instanceOS : String
  location : String
  zones : List String
  vmPoolNodeTemplate : Option VMPoolNodeTemplate
  vmssNodeTemplate : Option VMSSNodeTemplate
  deriving DecidableEq, Repr

/-- The fields of `apiv1.Node` written by this code.  `capacity` and
`allocatable` model `Status.Capacity` and `Status.Allocatable`; quantities
are the exact `int64` values passed to `resource.NewQuantity`. -/
structure Node where
  name : String
  selfLink : String
  labels : List (String × String)
  taints : List Taint
  capacity : List (String × Int)
  allocatable : List (String × Int)
  deriving DecidableEq, Repr

/-- The instance-type data (`InstanceType`) returned by the static or
dynamic SKU lookup: vCPU count, GPU count and memory in megabytes. -/
structure InstanceType where
  vcpu : Int
  gpu : Int
  memoryMb : Int
  deriving DecidableEq, Repr

/-- Constants and helper functions of the azure package that are defined
outside the sampled file (azure_util.go / azure_cloud_provider.go) and the
external `resource.ParseQuantity`; they are threaded as an environment so
every theorem holds for all of their possible values. -/
structure AzureEnv where
  nodeLabelTagName : String
  nodeTaintTagName : String
  nodeResourcesTagName : String
  isNvidiaEnabledSKU : String → Bool
  gpuLabel : String
  legacyGPULabel : String
  parseQuantity : String → Option Int

/-- `cloudprovider.DefaultOS` (constant of the cloudprovider package). -/
def DefaultOS : String := "linux"

/-- `cloudprovider.DefaultArch` (constant of the cloudprovider package). -/
def DefaultArch : String := "amd64"

/-- `kubeletapis.LabelArch`. -/
def labelArchBeta : String := "beta.kubernetes.io/arch"

/-- `apiv1.LabelArchStable`. -/
def labelArchStable : String := "kubernetes.io/arch"

/-- `kubeletapis.LabelOS`. -/
def labelOSBeta : String := "beta.kubernetes.io/os"

/-- `apiv1.LabelOSStable`. -/
def labelOSStable : String := "kubernetes.io/os"

/-- `apiv1.LabelInstanceType`. -/
def labelInstanceType : String := "beta.kubernetes.io/instance-type"

/-- `apiv1.LabelInstanceTypeStable`. -/
def labelInstanceTypeStable : String := "node.kubernetes.io/instance-type"

/-- `apiv1.LabelZoneRegion`. -/
def labelZoneRegion : String := "failure-domain.beta.kubernetes.io/region"

/-- `apiv1.LabelTopologyRegion`. -/
def labelTopologyRegion : String := "topology.kubernetes.io/region"

/-- `apiv1.LabelZoneFailureDomain`. -/
def labelZoneFailureDomain : String := "failure-domain.beta.kubernetes.io/zone"

/-- `apiv1.LabelTopologyZone`. -/
def labelTopologyZone : String := "topology.kubernetes.io/zone"

/-- `apiv1.LabelHostname`. -/
def labelHostname : String := "kubernetes.io/hostname"

/-- `azureDiskTopologyKey` constant from azure_template.go. -/
def azureDiskTopologyKey : String := "topology.disk.csi.azure.com/zone"

/-- `legacyPoolNameTag` constant from azure_template.go. -/
def legacyPoolNameTag : String := "poolName"

/-- `poolNameTag` constant from azure_template.go. -/
def poolNameTag : String := "aks-managed-poolName"

/-- `legacyAgentPoolNodeLabelKey` constant from azure_template.go. -/
def legacyAgentPoolNodeLabelKey : String := "agentpool"

/-- `agentPoolNodeLabelKey` constant from azure_template.go. -/
def agentPoolNodeLabelKey : String := "kubernetes.azure.com/agentpool"

/-- `legacyStorageProfileNodeLabelKey` constant from azure_template.go. -/
def legacyStorageProfileNodeLabelKey : String := "storageprofile"

/-- `storageProfileNodeLabelKey` constant from azure_template.go. -/
def storageProfileNodeLabelKey : String := "kubernetes.azure.com/storageprofile"

/-- `legacyStorageTierNodeLabelKey` constant from azure_template.go. -/
def legacyStorageTierNodeLabelKey : String := "storagetier"

/-- `storageTierNodeLabelKey` constant from azure_template.go. -/
def storageTierNodeLabelKey : String := "kubernetes.azure.com/storagetier"

/-- `xilinxFpgaResourceName` constant from azure_template.go. -/
def xilinxFpgaResourceName : String :=
  "xilinx.com/fpga-xilinx_u250_gen3x16_xdma_shell_2_1-0"

/-- `gpu.ResourceNvidiaGPU` (constant of the gpu utils package). -/
def resourceNvidiaGPU : String := "nvidia.com/gpu"

/-- `isNPSeries` from azure_template.go. -/
def isNPSeries (name : String) : Bool :=
  isPre "standard_np".data (goToLower name).data

/-- `cloudprovider.JoinStringMaps` (cloudprovider utils, outside the sampled
file): builds a fresh map and inserts the entries of each argument map in
order, later maps overriding earlier ones.  Modelled from the spec: the
provider adapter merges label maps with later entries taking precedence. -/
def insAll (acc : List (String × String)) (m : List (String × String)) :
    List (String × String) :=
  m.foldl (fun a kv => mapSet a kv.1 kv.2) acc

/-- Binary `cloudprovider.JoinStringMaps` (all call sites pass two maps). -/
def JoinStringMaps (a b : List (String × String)) : List (String × String) :=
  insAll (insAll [] a) b

/-- `buildGenericLabels` from azure_template.go.  `rand.Intn(n)` is modelled
by the explicit draw `randZone` reduced modulo the number of zones, making
the randomness an explicit input of the function. -/
def buildGenericLabels (template : NodeTemplate) (nodeName : String) (randZone : Nat) :
    List (String × String) :=
  let r := mapSet [] labelArchBeta DefaultArch
  let r := mapSet r labelArchStable DefaultArch
  let r := mapSet r labelOSBeta template.instanceOS
  let r := mapSet r labelOSStable template.instanceOS
  let r := mapSet r labelInstanceType template.skuName
  let r := mapSet r labelInstanceTypeStable template.skuName
  let r := mapSet r labelZoneRegion (goToLower template.location)
  let r := mapSet r labelTopologyRegion (goToLower template.location)
  let r :=
    if template.zones.length > 0 then
      let failureDomains := template.zones.map
        (fun v => goToLower template.location ++ "-" ++ v)
      let randomZone := failureDomains.getD (randZone % failureDomains.length) ""
      let r := mapSet r labelZoneFailureDomain randomZone
      let r := mapSet r labelTopologyZone randomZone
      mapSet r azureDiskTopologyKey randomZone
    else
      let r := mapSet r labelZoneFailureDomain "0"
      let r := mapSet r labelTopologyZone "0"
      mapSet r azureDiskTopologyKey ""
  mapSet r labelHostname nodeName

/-- `extractLabelsFromTags` from azure_template.go.  This total version
covers the non-panicking executions only: for a matching tag name Go
dereferences the `*string` tag value without a nil check
(`result[label] = *tagValue`), so a nil value crashes the process there;
`extractLabelsFromTagsChecked` models that crash path explicitly, and here
a nil value is read as the empty string. -/
def extractLabelsFromTags (nodeLabelTagName' : String)
    (tags : List (String × Option String)) : List (String × String) :=
  tags.foldl
    (fun result kv =>
      let splits := goSplitStr nodeLabelTagName' kv.1
      match splits with
      | _ :: second :: _ =>
        let label := goReplaceAll "~2" "_" (goReplaceAll "_" "/" second)
        if label ≠ "" then mapSet result label (kv.2.getD "") else result
      | _ => result)
    []

/-- `extractTaintsFromTags` from azure_template.go.  This total version
covers the non-panicking executions only: Go evaluates
`r.MatchString(*tagValue)` for every tag entry, so any nil tag value
crashes the process there; `extractTaintsFromTagsChecked` models that
crash path explicitly, and here a nil value is treated as no match.  The
list order of `tags` stands for one iteration order of the Go map, which
is randomized at runtime; the output taint slice depends on it only up to
permutation (`extractTaintsFromTags_perm`). -/
def extractTaintsFromTags (nodeTaintTagName' : String)
    (tags : List (String × Option String)) : List Taint :=
  tags.foldl
    (fun taints kv =>
      match kv.2 with
      | none => taints
      | some tv =>
        if taintRegexMatches tv.data then
          match goSplitStr nodeTaintTagName' kv.1 with
          | _ :: second :: _ =>
            -- values := strings.SplitN(*tagValue, ":", 2); len(values) > 1
            -- holds exactly when the value contains a colon, which the
            -- regular-expression guard already guarantees.
            if (':' : Char) ∈ tv.data then
              let values := goSplitN2Colon tv.data
              let taintKey := goReplaceAll "~2" "_" (goReplaceAll "_" "/" second)
              taints ++ [{ key := taintKey, value := ⟨values.1⟩, effect := ⟨values.2⟩ }]
            else taints
          | _ => taints
        else taints)
    []

/-- `extractAllocatableResourcesFromScaleSet` from azure_template.go,
with `resource.ParseQuantity` supplied by the environment.  This total
version covers the non-panicking executions only: for a tag name matching
the resources prefix Go calls `resource.ParseQuantity(*tagValue)` without
a nil check, so a nil value crashes the process there;
`extractAllocatableResourcesFromScaleSetChecked` models that crash path
explicitly, and here a nil value is read as a failed parse. -/
def extractAllocatableResourcesFromScaleSet (env : AzureEnv)
    (tags : List (String × Option String)) : List (String × Int) :=
  tags.foldl
    (fun resources kv =>
      match goSplitStr env.nodeResourcesTagName kv.1 with
      | _ :: second :: _ =>
        if second = "" then resources
        else
          let normalizedResourceName := goReplaceAll "~2" "/" (goReplaceAll "_" "/" second)
          match kv.2.bind env.parseQuantity with
          | some quantity => rlSet resources normalizedResourceName quantity
          | none => resources
      | _ => resources)
    []

/-- Panic-aware model of `extractLabelsFromTags`: `none` marks the
execution in which Go dereferences a nil `*string` tag value at
`result[label] = *tagValue` and the process crashes. -/
def extractLabelsFromTagsChecked (nodeLabelTagName' : String)
    (tags : List (String × Option String)) : Option (List (String × String)) :=
  tags.foldl
    (fun acc kv => acc.bind (fun result =>
      let splits := goSplitStr nodeLabelTagName' kv.1
      match splits with
      | _ :: second :: _ =>
        let label := goReplaceAll "~2" "_" (goReplaceAll "_" "/" second)
        if label ≠ "" then
          match kv.2 with
          | none => none
          | some v => some (mapSet result label v)
        else some result
      | _ => some result))
    (some [])

/-- Panic-aware model of `extractTaintsFromTags`: `none` marks the
execution in which Go dereferences a nil `*string` tag value at
`r.MatchString(*tagValue)` — evaluated for every tag entry — and the
process crashes. -/
def extractTaintsFromTagsChecked (nodeTaintTagName' : String)
    (tags : List (String × Option String)) : Option (List Taint) :=
  tags.foldl
    (fun acc kv => acc.bind (fun taints =>
      match kv.2 with
      | none => none
      | some tv =>
        some (if taintRegexMatches tv.data then
          match goSplitStr nodeTaintTagName' kv.1 with
          | _ :: second :: _ =>
            if (':' : Char) ∈ tv.data then
              let values := goSplitN2Colon tv.data
              let taintKey := goReplaceAll "~2" "_" (goReplaceAll "_" "/" second)
              taints ++ [{ key := taintKey, value := ⟨values.1⟩, effect := ⟨values.2⟩ }]
            else taints
          | _ => taints
        else taints)))
    (some [])

/-- Panic-aware model of `extractAllocatableResourcesFromScaleSet`:
`none` marks the execution in which Go dereferences a nil `*string` tag
value at `resource.ParseQuantity(*tagValue)` and the process crashes. -/
def extractAllocatableResourcesFromScaleSetChecked (env : AzureEnv)
    (tags : List (String × Option String)) : Option (List (String × Int)) :=
  tags.foldl
    (fun acc kv => acc.bind (fun resources =>
      match goSplitStr env.nodeResourcesTagName kv.1 with
      | _ :: second :: _ =>
        if second = "" then some resources
        else
          let normalizedResourceName := goReplaceAll "~2" "/" (goReplaceAll "_" "/" second)
          match kv.2 with
          | none => none
          | some raw =>
            match env.parseQuantity raw with
            | some quantity => some (rlSet resources normalizedResourceName quantity)
            | none => some resources
      | _ => some resources))
    (some [])

/-- The label contributed by one scale-set tag in `extractLabelsFromTags`
(`none` when the tag name does not match or the label normalizes to the
empty string). -/
def labelEntry (nodeLabelTagName' : String) (kv : String × Option String) :
    Option (String × String) :=
  match goSplitStr nodeLabelTagName' kv.1 with
  | _ :: second :: _ =>
    let label := goReplaceAll "~2" "_" (goReplaceAll "_" "/" second)
    if label ≠ "" then some (label, kv.2.getD "") else none
  | _ => none

/-- All label entries contributed by the scale-set tags, in iteration
order. -/
def labelEntries (nodeLabelTagName' : String) (tags : List (String × Option String)) :
    List (String × String) :=
  tags.filterMap (labelEntry nodeLabelTagName')

/-- The taint contributed by one scale-set tag in `extractTaintsFromTags`. -/
def taintEntry (nodeTaintTagName' : String) (kv : String × Option String) :
    Option Taint :=
  match kv.2 with
  | none => none
  | some tv =>
    if taintRegexMatches tv.data then
      match goSplitStr nodeTaintTagName' kv.1 with
      | _ :: second :: _ =>
        if (':' : Char) ∈ tv.data then
          let values := goSplitN2Colon tv.data
          let taintKey := goReplaceAll "~2" "_" (goReplaceAll "_" "/" second)
          some { key := taintKey, value := ⟨values.1⟩, effect := ⟨values.2⟩ }
        else none
      | _ => none
    else none

/-- The resource entry contributed by one scale-set tag in
`extractAllocatableResourcesFromScaleSet`. -/
def allocEntry (env : AzureEnv) (kv : String × Option String) :
    Option (String × Int) :=
  match goSplitStr env.nodeResourcesTagName kv.1 with
  | _ :: second :: _ =>
    if second = "" then none
    else
      let normalizedResourceName := goReplaceAll "~2" "/" (goReplaceAll "_" "/" second)
      match kv.2.bind env.parseQuantity with
      | some quantity => some (normalizedResourceName, quantity)
      | none => none
  | _ => none

/-- All resource entries contributed by the scale-set tags, in iteration
order. -/
def allocEntries (env : AzureEnv) (tags : List (String × Option String)) :
    List (String × Int) :=
  tags.filterMap (allocEntry env)

/-- Go `map` read returning `Option` (first match; all maps built by
`mapSet` have unique keys, so first and last match coincide). -/
def mapFind (l : List (String × String)) (k : String) : Option String :=
  match l with
  | [] => none
  | (k', v') :: rest => if k' = k then some v' else mapFind rest k

/-- The value written last for key `k` when the entries of `tags` are
inserted in order, each entry writing `g kv` at key `kv.1` (`none` when no
entry has key `k`).  This is what a sequence of Go map assignments leaves
at `k`. -/
def lastVal {α β : Type} (g : String × α → β) :
    List (String × α) → String → Option β
  | [], _ => none
  | kv :: rest, k =>
    match lastVal g rest k with
    | some v => some v
    | none => if kv.1 = k then some (g kv) else none

/-- The keys of an association list are pairwise distinct (true of every
list standing for a Go map). -/
def keysNodup {α : Type} (l : List (String × α)) : Prop :=
  (l.map Prod.fst).Nodup

/-- Two association lists stand for the same Go map when one is a
permutation of the other and the keys are pairwise distinct: iterating a
Go map yields each entry exactly once, in an order that is randomized at
runtime. -/
def sameGoMapList {α : Type} (m1 m2 : List (String × α)) : Prop :=
  m1.Perm m2 ∧ keysNodup m1

/-- The same Go `VMSSNodeTemplate` value observed under two iteration
orders of its `Tags` and `InputLabels` maps. -/
def sameGoVMSS (v1 v2 : VMSSNodeTemplate) : Prop :=
  sameGoMapList v1.inputLabels v2.inputLabels ∧
  v1.inputTaints = v2.inputTaints ∧
  sameGoMapList v1.tags v2.tags ∧
  v1.osDisk = v2.osDisk

/-- The same Go `VMPoolNodeTemplate` value observed under two iteration
orders of its `Labels` map. -/
def sameGoVMPool (p1 p2 : VMPoolNodeTemplate) : Prop :=
  p1.agentPoolName = p2.agentPoolName ∧
  p1.taints = p2.taints ∧
  p1.osDiskType = p2.osDiskType ∧
  (match p1.labels, p2.labels with
   | none, none => True
   | some m1, some m2 => sameGoMapList m1 m2
   | _, _ => False)

/-- The same Go `NodeTemplate` value observed under two iteration orders
of its maps: all scalar fields agree and the map-carrying sub-templates
agree up to permutation of their entry lists. -/
def sameGoTemplate (t1 t2 : NodeTemplate) : Prop :=
  t1.skuName = t2.skuName ∧ t1.instanceOS = t2.instanceOS ∧
  t1.location = t2.location ∧ t1.zones = t2.zones ∧
  (match t1.vmssNodeTemplate, t2.vmssNodeTemplate with
   | none, none => True
   | some v1, some v2 => sameGoVMSS v1 v2
   | _, _ => False) ∧
  (match t1.vmPoolNodeTemplate, t2.vmPoolNodeTemplate with
   | none, none => True
   | some p1, some p2 => sameGoVMPool p1 p2
   | _, _ => False)

/-- Writes a capacity entry on a node whose `Status.Allocatable` was
assigned the same map object as `Status.Capacity` (line
`node.Status.Allocatable = node.Status.Capacity`): a Go write through the
`Capacity` field is visible through `Allocatable`, so both model fields are
updated. -/
def setCapacityBoth (n : Node) (k : String) (v : Int) : Node :=
  { n with capacity := rlSet n.capacity k v, allocatable := rlSet n.allocatable k v }

/-- The `enableLabelPrediction` block of `processVMSSTemplate`
(azure_template.go): best-effort AKS system labels predicted from the
VMSS `poolName` tags (read back from the node's labels), the OS-disk
storage profile/tier, and the GPU label for NVIDIA-enabled SKUs. -/
def predictionLabels (env : AzureEnv) (skuName : String) (vt : VMSSNodeTemplate)
    (nodeLabels : List (String × String)) (labels : List (String × String)) :
    List (String × String) :=
  let l := labels
  let l :=
    if mapGetD nodeLabels legacyPoolNameTag "" ≠ "" then
      let v := mapGetD nodeLabels legacyPoolNameTag ""
      mapSet (mapSet l legacyAgentPoolNodeLabelKey v) agentPoolNodeLabelKey v
    else l
  let l :=
    if mapGetD nodeLabels poolNameTag "" ≠ "" then
      let v := mapGetD nodeLabels poolNameTag ""
      mapSet (mapSet l legacyAgentPoolNodeLabelKey v) agentPoolNodeLabelKey v
    else l
  let l :=
    match vt.osDisk with
    | some od =>
      let l :=
        if od.diffDiskOption = some "Local" then
          mapSet (mapSet l legacyStorageProfileNodeLabelKey "ephemeral")
            storageProfileNodeLabelKey "ephemeral"
        else
          mapSet (mapSet l legacyStorageProfileNodeLabelKey "managed")
            storageProfileNodeLabelKey "managed"
      match od.storageAccountType with
      | some sat =>
        mapSet (mapSet l legacyStorageTierNodeLabelKey sat) storageTierNodeLabelKey sat
      | none => l
    | none => l
  let l :=
    if env.isNvidiaEnabledSKU skuName then
      mapSet (mapSet l env.gpuLabel "nvidia") env.legacyGPULabel "nvidia"
    else l
  l

/-- `processVMSSTemplate` from azure_template.go, with the non-nil
`template.VMSSNodeTemplate` passed explicitly as `vt`. -/
def processVMSSTemplate (env : AzureEnv) (template : NodeTemplate)
    (vt : VMSSNodeTemplate) (nodeName : String) (node : Node)
    (enableLabelPrediction : Bool) (randZone : Nat) : Node :=
  -- NodeLabels: copy the scale set's tags (nil values become "")
  let nodeLabels :=
    vt.tags.foldl (fun acc kv => mapSet acc kv.1 (kv.2.getD "")) node.labels
  -- GenericLabels
  let nodeLabels := JoinStringMaps nodeLabels (buildGenericLabels template nodeName randZone)
  -- Prefer the explicit labels in spec over the VMSS tags
  let labels :=
    if vt.inputLabels.length > 0 then vt.inputLabels
    else extractLabelsFromTags env.nodeLabelTagName vt.tags
  let labels :=
    if enableLabelPrediction then
      predictionLabels env template.skuName vt nodeLabels labels
    else labels
  -- Add ephemeral-storage value (int is 64-bit on all supported builds)
  let node :=
    match vt.osDisk with
    | some od =>
      match od.diskSizeGB with
      | some g => setCapacityBoth node "ephemeral-storage" (wrap64 (g * 1073741824))
      | none => node
    | none => node
  -- Extract allocatables from tags
  let node :=
    (extractAllocatableResourcesFromScaleSet env vt.tags).foldl
      (fun n kv => setCapacityBoth n kv.1 kv.2) node
  let nodeLabels := JoinStringMaps nodeLabels labels
  -- Prefer the explicit taints in spec over the tags from vmss or vm
  let taints :=
    if vt.inputTaints ≠ "" then extractTaintsFromSpecString vt.inputTaints
    else extractTaintsFromTags env.nodeTaintTagName vt.tags
  { node with labels := nodeLabels, taints := taints }

/-- Panic-aware model of `processVMSSTemplate`: `none` marks the
executions in which one of the three tag extractors dereferences a nil
`*string` tag value and the process crashes (`extractLabelsFromTags` runs
only when the spec carries no labels, `extractTaintsFromTags` only when it
carries no taints, and `extractAllocatableResourcesFromScaleSet` always);
on every other execution the function returns the `processVMSSTemplate`
value. -/
def processVMSSTemplateChecked (env : AzureEnv) (template : NodeTemplate)
    (vt : VMSSNodeTemplate) (nodeName : String) (node : Node)
    (enableLabelPrediction : Bool) (randZone : Nat) : Option Node :=
  match (if vt.inputLabels.length > 0 then some []
         else extractLabelsFromTagsChecked env.nodeLabelTagName vt.tags),
        extractAllocatableResourcesFromScaleSetChecked env vt.tags,
        (if vt.inputTaints ≠ "" then some []
         else extractTaintsFromTagsChecked env.nodeTaintTagName vt.tags) with
  | some _, some _, some _ =>
    some (processVMSSTemplate env template vt nodeName node enableLabelPrediction randZone)
  | _, _, _ => none

/-- `processVMPoolTemplate` from azure_template.go, with the non-nil
`template.VMPoolNodeTemplate` passed explicitly as `vp`. -/
def processVMPoolTemplate (template : NodeTemplate) (vp : VMPoolNodeTemplate)
    (nodeName : String) (node : Node) (randZone : Nat) : Node :=
  let labels := buildGenericLabels template nodeName randZone
  let labels := mapSet labels agentPoolNodeLabelKey vp.agentPoolName
  let labels :=
    match vp.labels with
    | some m => m.foldl (fun acc kv => mapSet acc kv.1 (kv.2.getD "")) labels
    | none => labels
  { node with labels := JoinStringMaps node.labels labels, taints := vp.taints }

/-- The instance-type resolution step of `buildNodeFromTemplate`: the
dynamic SKU lookup is consulted only when `enableDynamicInstanceList` is
set, and the static list is the fallback whenever the dynamic lookup was
skipped or failed.  The results of `GetInstanceTypeDynamically` and
`GetInstanceTypeStatically` (defined outside the sampled file) are explicit
inputs. -/
def resolvedInstanceType (enableDynamicInstanceList : Bool)
    (dynamicResult staticResult : Except String InstanceType) :
    Except String InstanceType :=
  if enableDynamicInstanceList then
    match dynamicResult with
    | .ok it => .ok it
    | .error _ => staticResult
  else staticResult

/-- `buildNodeFromTemplate` from azure_template.go.  The two `math/rand`
draws (`rand.Int63()` for the node-name suffix and `rand.Intn` inside
`buildGenericLabels`) are explicit inputs `randInt63` and `randZone`; the
SKU lookups are explicit inputs (see `resolvedInstanceType`).
`BuildReadyConditions`, which only fills `Status.Conditions`, is not
modelled. -/
def buildNodeFromTemplate (env : AzureEnv) (nodeGroupName : String)
    (template : NodeTemplate)
    (dynamicResult staticResult : Except String InstanceType)
    (enableDynamicInstanceList enableLabelPrediction : Bool)
    (randInt63 : Nat) (randZone : Nat) : Except String Node :=
  let nodeName := nodeGroupName ++ "-asg-" ++ toString randInt63
  let node0 : Node :=
    { name := nodeName, selfLink := "/api/v1/nodes/" ++ nodeName,
      labels := [], taints := [], capacity := [], allocatable := [] }
  match resolvedInstanceType enableDynamicInstanceList dynamicResult staticResult with
  | .error e => .error e
  | .ok it =>
    let cap := rlSet [] "pods" 110
    let cap := rlSet cap "cpu" it.vcpu
    let cap :=
      if isNPSeries template.skuName then rlSet cap xilinxFpgaResourceName it.gpu
      else rlSet cap resourceNvidiaGPU it.gpu
    let cap := rlSet cap "memory" (wrap64 (it.memoryMb * 1048576))
    -- node.Status.Allocatable = node.Status.Capacity (same map object)
    let node1 := { node0 with capacity := cap, allocatable := cap }
    match template.vmssNodeTemplate with
    | some vt =>
      .ok (processVMSSTemplate env template vt nodeName node1 enableLabelPrediction randZone)
    | none =>
      match template.vmPoolNodeTemplate with
      | some vp => .ok (processVMPoolTemplate template vp nodeName node1 randZone)
      | none => .error "invalid node template: missing both VMSS and VMPool templates"

/-- Panic-aware model of `buildNodeFromTemplate`: `none` marks the
executions in which `processVMSSTemplate` dereferences a nil `*string`
tag value and the process crashes; `some r` marks the executions that
return normally with result `r`.  `processVMPoolTemplate` reads its
`Labels` values through the nil-safe `to.String`, so the VMPool branch
never panics. -/
def buildNodeFromTemplateChecked (env : AzureEnv) (nodeGroupName : String)
    (template : NodeTemplate)
    (dynamicResult staticResult : Except String InstanceType)
    (enableDynamicInstanceList enableLabelPrediction : Bool)
    (randInt63 : Nat) (randZone : Nat) : Option (Except String Node) :=
  let nodeName := nodeGroupName ++ "-asg-" ++ toString randInt63
  let node0 : Node :=
    { name := nodeName, selfLink := "/api/v1/nodes/" ++ nodeName,
      labels := [], taints := [], capacity := [], allocatable := [] }
  match resolvedInstanceType enableDynamicInstanceList dynamicResult staticResult with
  | .error e => some (.error e)
  | .ok it =>
    let cap := rlSet [] "pods" 110
    let cap := rlSet cap "cpu" it.vcpu
    let cap :=
      if isNPSeries template.skuName then rlSet cap xilinxFpgaResourceName it.gpu
      else rlSet cap resourceNvidiaGPU it.gpu
    let cap := rlSet cap "memory" (wrap64 (it.memoryMb * 1048576))
    let node1 := { node0 with capacity := cap, allocatable := cap }
    match template.vmssNodeTemplate with
    | some vt =>
      (processVMSSTemplateChecked env template vt nodeName node1
          enableLabelPrediction randZone).map Except.ok
    | none =>
      match template.vmPoolNodeTemplate with
      | some vp => some (.ok (processVMPoolTemplate template vp nodeName node1 randZone))
      | none =>
        some (.error "invalid node template: missing both VMSS and VMPool templates")

/-! ## `buildNodeTemplateFromVMSS` (azure_template.go) -/

/-- `compute.Sku` (the `Name` field read by this code). -/
structure ComputeSku where
  name : Option String
  deriving DecidableEq, Repr

/-- The fields of `compute.VirtualMachineScaleSet` read by
`buildNodeTemplateFromVMSS`.  `windowsConfiguration` is `some ()` when
`VirtualMachineProfile.OsProfile.WindowsConfiguration` is non-nil, and the
OS-disk chain collapses nil checks at each level. -/
structure VMSSProfile where
  windowsConfiguration : Option Unit
  osDisk : Option OSDisk
  deriving DecidableEq, Repr

/-- `compute.VirtualMachineScaleSet` (fields read by this code). -/
structure VMSS where
  name : Option String
  sku : Option ComputeSku
  location : Option String
  zones : Option (List String)
  tags : List (String × Option String)
  virtualMachineProfile : Option VMSSProfile
  deriving DecidableEq, Repr

/-- `buildNodeTemplateFromVMSS` from azure_template.go. -/
def buildNodeTemplateFromVMSS (vmss : VMSS) (inputLabels : List (String × String))
    (inputTaints : String) : Except String NodeTemplate :=
  let instanceOS :=
    match vmss.virtualMachineProfile with
    | some p => match p.windowsConfiguration with
      | some _ => "windows"
      | none => DefaultOS
    | none => DefaultOS
  let osDisk :=
    match vmss.virtualMachineProfile with
    | some p => p.osDisk
    | none => none
  match vmss.sku with
  | none => .error ("VMSS " ++ (vmss.name.getD "") ++ " has no SKU")
  | some sk =>
    match sk.name with
    | none => .error ("VMSS " ++ (vmss.name.getD "") ++ " has no SKU")
    | some skuName =>
      match vmss.location with
      | none => .error ("VMSS " ++ (vmss.name.getD "") ++ " has no location")
      | some loc =>
        let zones := vmss.zones.getD []
        .ok
          { skuName := skuName, location := loc, zones := zones,
            instanceOS := instanceOS,
            vmPoolNodeTemplate := none,
            vmssNodeTemplate := some
              { inputLabels := inputLabels, inputTaints := inputTaints,
                osDisk := osDisk, tags := vmss.tags } }

/-! ## OCI SDK: ListAppCatalogListingResourceVersions request (generated) -/

/-- `ListAppCatalogListingResourceVersionsSortOrderEnum` is a string type in
the generated Go SDK; enum values are their string representations. -/
def SortOrderEnum := String
deriving instance DecidableEq, Repr for SortOrderEnum

/-- `mappingListAppCatalogListingResourceVersionsSortOrderEnumLowerCase`. -/
def mappingSortOrderEnumLowerCase : List (String × String) :=
  [("asc", "ASC"), ("desc", "DESC")]

/-- `GetListAppCatalogListingResourceVersionsSortOrderEnumStringValues`. -/
def GetListAppCatalogListingResourceVersionsSortOrderEnumStringValues : List String :=
  ["ASC", "DESC"]

/-- Association-list lookup (Go map read returning the ok flag). -/
def alistLookup (l : List (String × String)) (k : String) : Option String :=
  match l with
  | [] => none
  | (k', v') :: rest => if k' = k then some v' else alistLookup rest k

/-- `GetMappingListAppCatalogListingResourceVersionsSortOrderEnum`:
case-insensitive lookup via the lower-case mapping. -/
def GetMappingListAppCatalogListingResourceVersionsSortOrderEnum (val : String) :
    Option String :=
  alistLookup mappingSortOrderEnumLowerCase (goToLower val)

/-- `ListAppCatalogListingResourceVersionsRequest` (the fields that take
part in validation; the remaining fields only contribute to the outgoing
request object). -/
structure ListAppCatalogListingResourceVersionsRequest where
  listingId : Option String
  limit : Option Int
  page : Option String
  sortOrder : String
  opcRequestId : Option String
  deriving DecidableEq, Repr

/-- `ValidateEnumValue` of the request: collects an error message exactly
when `SortOrder` is set but absent from the case-insensitive mapping. -/
def ValidateEnumValue (request : ListAppCatalogListingResourceVersionsRequest) :
    Bool × Option String :=
  let errMessage : List String :=
    if (GetMappingListAppCatalogListingResourceVersionsSortOrderEnum
          request.sortOrder).isNone ∧ request.sortOrder ≠ "" then
      ["unsupported enum value for SortOrder: " ++ request.sortOrder ++
        ". Supported values are: ASC,DESC."]
    else []
  if errMessage.length > 0 then (true, some (goJoin '\n' errMessage))
  else (false, none)

/-- Stand-in for Go's `http.Request` value: only its zero value
(`http.Request{}`) is distinguished by the claims. -/
structure GoHTTPRequest where
  method : String
  url : String
  deriving DecidableEq, Repr

/-- The zero value `http.Request{}`. -/
def emptyGoHTTPRequest : GoHTTPRequest := { method := "", url := "" }

/-- `HTTPRequest` of the request: runs enum validation and, on success,
returns the result of the external
`common.MakeDefaultHTTPRequestWithTaggedStructAndExtraHeaders` call, which
is an explicit input `makeDefault` (its code lives in the common package,
outside the repository slice). -/
def HTTPRequestImpl (request : ListAppCatalogListingResourceVersionsRequest)
    (makeDefault : GoHTTPRequest × Option String) : GoHTTPRequest × Option String :=
  match (ValidateEnumValue request).2 with
  | some err => (emptyGoHTTPRequest, some err)
  | none => makeDefault

/-! ## OCI SDK: BlockVolumeReplica lifecycle-state enum (generated) -/

/-- `mappingBlockVolumeReplicaLifecycleStateEnumLowerCase` from
block_volume_replica.go. -/
def mappingBlockVolumeReplicaLifecycleStateEnumLowerCase : List (String × String) :=
  [("provisioning", "PROVISIONING"),
   ("available", "AVAILABLE"),
   ("activating", "ACTIVATING"),
   ("terminating", "TERMINATING"),
   ("terminated", "TERMINATED"),
   ("faulty", "FAULTY")]

/-- `GetBlockVolumeReplicaLifecycleStateEnumStringValues` from
block_volume_replica.go. -/
def GetBlockVolumeReplicaLifecycleStateEnumStringValues : List String :=
  ["PROVISIONING", "AVAILABLE", "ACTIVATING", "TERMINATING", "TERMINATED", "FAULTY"]

/-- `GetMappingBlockVolumeReplicaLifecycleStateEnum` from
block_volume_replica.go: case-insensitive lookup via the lower-case
mapping; `some e` models `(e, true)` and `none` models the zero enum with
`false`. -/
def GetMappingBlockVolumeReplicaLifecycleStateEnum (val : String) : Option String :=
  alistLookup mappingBlockVolumeReplicaLifecycleStateEnumLowerCase (goToLower val)

/-! ## Helper notions for the claims -/

/-- The label keys whose values come from the random draws inside
`buildNodeFromTemplate`: the zone labels are a randomly picked failure
domain and the hostname label carries the random name suffix. -/
def specialLabelKeys : List String :=
  [labelZoneFailureDomain, labelTopologyZone, azureDiskTopologyKey, labelHostname]

/-- Blank out the values at the randomness-dependent label keys. -/
def maskL (l : List (String × String)) : List (String × String) :=
  l.map (fun kv => (kv.1, if kv.1 ∈ specialLabelKeys then "" else kv.2))

/-- A concrete environment used by witnesses. -/
def envW : AzureEnv :=
  { nodeLabelTagName := "k8s.io_cluster-autoscaler_node-template_label_",
    nodeTaintTagName := "k8s.io_cluster-autoscaler_node-template_taint_",
    nodeResourcesTagName := "k8s.io_cluster-autoscaler_node-template_resources_",
    isNvidiaEnabledSKU := fun _ => false,
    gpuLabel := "accelerator", legacyGPULabel := "accelerator",
    parseQuantity := fun _ => none }

/-- A concrete two-zone VMSS-backed template used by witnesses and
counterexamples. -/
def templW : NodeTemplate :=
  { skuName := "Standard_D2", instanceOS := "linux", location := "WestUS",
    zones := ["1", "2"], vmPoolNodeTemplate := none,
    vmssNodeTemplate := some
      { inputLabels := [], inputTaints := "", tags := [],
        osDisk := some { diffDiskOption := none, storageAccountType := none,
                         diskSizeGB := some 30 } } }

/-- A concrete instance type used by witnesses. -/
def instW : InstanceType := { vcpu := 2, gpu := 0, memoryMb := 8192 }

/-- A concrete template with neither sub-template. -/
def templNoSub : NodeTemplate :=
  { skuName := "Standard_D2", instanceOS := "linux", location := "westus",
    zones := [], vmPoolNodeTemplate := none, vmssNodeTemplate := none }

/-- The node built from `templW` with draws 7 and 1 (used by witnesses). -/
def nodeW : Node :=
  { name := "ng-asg-7",
    selfLink := "/api/v1/nodes/ng-asg-7",
    labels := [(labelArchBeta, "amd64"), (labelArchStable, "amd64"),
               (labelOSBeta, "linux"), (labelOSStable, "linux"),
               (labelInstanceType, "Standard_D2"),
               (labelInstanceTypeStable, "Standard_D2"),
               (labelZoneRegion, "westus"), (labelTopologyRegion, "westus"),
               (labelZoneFailureDomain, "westus-2"), (labelTopologyZone, "westus-2"),
               (azureDiskTopologyKey, "westus-2"), (labelHostname, "ng-asg-7")],
    taints := [],
    capacity := [("pods", 110), ("cpu", 2), ("nvidia.com/gpu", 0),
                 ("memory", 8589934592), ("ephemeral-storage", 32212254720)],
    allocatable := [("pods", 110), ("cpu", 2), ("nvidia.com/gpu", 0),
                    ("memory", 8589934592), ("ephemeral-storage", 32212254720)] }

/-- The node built from `templW` with draws 3 and 0 (used by witnesses):
it differs from `nodeW` only in the name, the self link and the values of
the zone and hostname labels. -/
def nodeW2 : Node :=
  { name := "ng-asg-3",
    selfLink := "/api/v1/nodes/ng-asg-3",
    labels := [(labelArchBeta, "amd64"), (labelArchStable, "amd64"),
               (labelOSBeta, "linux"), (labelOSStable, "linux"),
               (labelInstanceType, "Standard_D2"),
               (labelInstanceTypeStable, "Standard_D2"),
               (labelZoneRegion, "westus"), (labelTopologyRegion, "westus"),
               (labelZoneFailureDomain, "westus-1"), (labelTopologyZone, "westus-1"),
               (azureDiskTopologyKey, "westus-1"), (labelHostname, "ng-asg-3")],
    taints := [],
    capacity := [("pods", 110), ("cpu", 2), ("nvidia.com/gpu", 0),
                 ("memory", 8589934592), ("ephemeral-storage", 32212254720)],
    allocatable := [("pods", 110), ("cpu", 2), ("nvidia.com/gpu", 0),
                    ("memory", 8589934592), ("ephemeral-storage", 32212254720)] }

/-- A VMSS-backed template one of whose tags carries a nil value: Go
panics on `r.MatchString(*tagValue)` in `extractTaintsFromTags` when it
reaches this template (its `InputTaints` is empty, so the tag taints are
read). -/
def templNilTag : NodeTemplate :=
  { skuName := "Standard_D2", instanceOS := "linux", location := "westus",
    zones := [], vmPoolNodeTemplate := none,
    vmssNodeTemplate := some
      { inputLabels := [], inputTaints := "", tags := [("x", none)],
        osDisk := none } }

/-! # Theorems -/

/-! ## Case folding -/

theorem toNat_charOfNat (n : Nat) (hv : n.isValidChar) : (Char.ofNat n).toNat = n := by
  simp [Char.ofNat, hv, Char.toNat, Char.ofNatAux, UInt32.toNat]

theorem goCharToLower_idem (c : Char) :
    goCharToLower (goCharToLower c) = goCharToLower c := by
  by_cases h : 65 ≤ c.toNat ∧ c.toNat ≤ 90
  · have hv : (c.toNat + 32).isValidChar := Or.inl (by omega)
    have ht : (Char.ofNat (c.toNat + 32)).toNat = c.toNat + 32 :=
      toNat_charOfNat _ hv
    have h1 : goCharToLower c = Char.ofNat (c.toNat + 32) := by
      unfold goCharToLower
      rw [if_pos h]
    rw [h1]
    unfold goCharToLower
    rw [ht, if_neg (by omega)]
  · have h1 : goCharToLower c = c := by
      unfold goCharToLower
      rw [if_neg h]
    rw [h1, h1]

theorem goToLower_idem (s : String) : goToLower (goToLower s) = goToLower s := by
  unfold goToLower
  refine congrArg String.mk ?_
  show (s.data.map goCharToLower).map goCharToLower = s.data.map goCharToLower
  rw [List.map_map]
  exact List.map_congr_left (fun a _ => goCharToLower_idem a)

/-! ## C10: BlockVolumeReplica lifecycle-state enum mapping -/

/-- C10: for every string s in the lifecycle-state string-value list, the
case-insensitive mapping returns exactly the enum whose string value is s,
and for every string the mapping agrees with the mapping of its lowercase
form (the lookup lowercases its argument and lowercasing is idempotent). -/
theorem c10_block_volume_replica_enum_mapping :
    (∀ s ∈ GetBlockVolumeReplicaLifecycleStateEnumStringValues,
        GetMappingBlockVolumeReplicaLifecycleStateEnum s = some s) ∧
    (∀ s, GetMappingBlockVolumeReplicaLifecycleStateEnum s =
        GetMappingBlockVolumeReplicaLifecycleStateEnum (goToLower s)) := by
  refine ⟨by decide, fun s => ?_⟩
  unfold GetMappingBlockVolumeReplicaLifecycleStateEnum
  rw [goToLower_idem]

/-- Witness for C10 at the concrete string "PROVISIONING". -/
theorem c10_block_volume_replica_enum_mapping_witness :
    GetMappingBlockVolumeReplicaLifecycleStateEnum "PROVISIONING" =
      some "PROVISIONING" :=
  c10_block_volume_replica_enum_mapping.1 "PROVISIONING" (by decide)

/-! ## C7: sort-order validation of ListAppCatalogListingResourceVersions -/

theorem getMappingSortOrder_eq_none_iff (v : String) :
    GetMappingListAppCatalogListingResourceVersionsSortOrderEnum v = none ↔
      goToLower v ≠ "asc" ∧ goToLower v ≠ "desc" := by
  unfold GetMappingListAppCatalogListingResourceVersionsSortOrderEnum
  unfold mappingSortOrderEnumLowerCase
  simp only [alistLookup]
  by_cases h1 : ("asc" : String) = goToLower v
  · rw [if_pos h1]
    exact ⟨fun h => Option.noConfusion h, fun hc => absurd h1.symm hc.1⟩
  · rw [if_neg h1]
    by_cases h2 : ("desc" : String) = goToLower v
    · rw [if_pos h2]
      exact ⟨fun h => Option.noConfusion h, fun hc => absurd h2.symm hc.2⟩
    · rw [if_neg h2]
      exact ⟨fun _ => ⟨fun h => h1 h.symm, fun h => h2 h.symm⟩, fun _ => rfl⟩

theorem validateEnumValue_eq_none_iff
    (request : ListAppCatalogListingResourceVersionsRequest) :
    (ValidateEnumValue request).2 = none ↔
      (request.sortOrder = "" ∨ goToLower request.sortOrder = "asc" ∨
        goToLower request.sortOrder = "desc") := by
  by_cases hc : (GetMappingListAppCatalogListingResourceVersionsSortOrderEnum
      request.sortOrder).isNone = true ∧ request.sortOrder ≠ ""
  · have h2 : (ValidateEnumValue request).2 =
        some ("unsupported enum value for SortOrder: " ++ request.sortOrder ++
          ". Supported values are: ASC,DESC.") := by
      unfold ValidateEnumValue
      rw [if_pos hc]
      rfl
    rw [h2]
    have hnone : GetMappingListAppCatalogListingResourceVersionsSortOrderEnum
        request.sortOrder = none := Option.isNone_iff_eq_none.mp hc.1
    have hne := (getMappingSortOrder_eq_none_iff request.sortOrder).mp hnone
    constructor
    · intro h
      exact Option.noConfusion h
    · rintro (h | h | h)
      · exact absurd h hc.2
      · exact absurd h hne.1
      · exact absurd h hne.2
  · have h2 : (ValidateEnumValue request).2 = none := by
      unfold ValidateEnumValue
      rw [if_neg hc]
      rfl
    rw [h2]
    refine ⟨fun _ => ?_, fun _ => rfl⟩
    by_cases hs : request.sortOrder = ""
    · exact Or.inl hs
    · have hmap : ¬ (GetMappingListAppCatalogListingResourceVersionsSortOrderEnum
          request.sortOrder).isNone = true := fun hn => hc ⟨hn, hs⟩
      have : ¬ GetMappingListAppCatalogListingResourceVersionsSortOrderEnum
          request.sortOrder = none := fun hn =>
        hmap (Option.isNone_iff_eq_none.mpr hn)
      rw [getMappingSortOrder_eq_none_iff] at this
      rcases not_and_or.mp this with h | h
      · exact Or.inr (Or.inl (not_not.mp h))
      · exact Or.inr (Or.inr (not_not.mp h))

/-- C7: `HTTPRequest` returns the zero `http.Request` together with an
error exactly when `SortOrder` is non-empty and, lowercased, is neither
"asc" nor "desc"; for an empty or recognized sort order the enum validation
yields no error and the result is exactly the outcome of the external
default-request constructor. -/
theorem c7_http_request_sort_order_validation
    (request : ListAppCatalogListingResourceVersionsRequest)
    (makeDefault : GoHTTPRequest × Option String) :
    (request.sortOrder ≠ "" ∧ goToLower request.sortOrder ≠ "asc" ∧
        goToLower request.sortOrder ≠ "desc" →
      ∃ e, HTTPRequestImpl request makeDefault = (emptyGoHTTPRequest, some e)) ∧
    (request.sortOrder = "" ∨ goToLower request.sortOrder = "asc" ∨
        goToLower request.sortOrder = "desc" →
      (ValidateEnumValue request).2 = none ∧
        HTTPRequestImpl request makeDefault = makeDefault) := by
  constructor
  · rintro ⟨h1, h2, h3⟩
    have hv : (ValidateEnumValue request).2 ≠ none := fun hEq => by
      rcases (validateEnumValue_eq_none_iff request).mp hEq with h | h | h
      exacts [h1 h, h2 h, h3 h]
    unfold HTTPRequestImpl
    rcases he : (ValidateEnumValue request).2 with _ | err
    · exact absurd he hv
    · exact ⟨err, rfl⟩
  · intro h
    have hv : (ValidateEnumValue request).2 = none :=
      (validateEnumValue_eq_none_iff request).mpr h
    refine ⟨hv, ?_⟩
    unfold HTTPRequestImpl
    rw [hv]

/-- Witness for C7: a malformed sort order is rejected with the zero
request, and a recognized one passes validation through to the external
constructor. -/
theorem c7_http_request_sort_order_validation_witness :
    (∃ e, HTTPRequestImpl
        { listingId := some "ocid1", limit := none, page := none,
          sortOrder := "ASCENDING", opcRequestId := none }
        ({ method := "GET", url := "u" }, none) = (emptyGoHTTPRequest, some e)) ∧
    HTTPRequestImpl
        { listingId := some "ocid1", limit := none, page := none,
          sortOrder := "Asc", opcRequestId := none }
        ({ method := "GET", url := "u" }, none) =
      ({ method := "GET", url := "u" }, none) :=
  ⟨(c7_http_request_sort_order_validation
      { listingId := some "ocid1", limit := none, page := none,
        sortOrder := "ASCENDING", opcRequestId := none }
      ({ method := "GET", url := "u" }, none)).1 (by decide),
   ((c7_http_request_sort_order_validation
      { listingId := some "ocid1", limit := none, page := none,
        sortOrder := "Asc", opcRequestId := none }
      ({ method := "GET", url := "u" }, none)).2 (by decide)).2⟩

/-! ## C5: buildNodeTemplateFromVMSS -/

/-- C5: `buildNodeTemplateFromVMSS` fails exactly when the VMSS has no SKU
name or no location; on success the template's SKU name and location are
those of the VMSS and its zone list is empty whenever the VMSS zones field
is absent. -/
theorem c5_build_node_template_from_vmss (vmss : VMSS)
    (inputLabels : List (String × String)) (inputTaints : String) :
    ((∃ e, buildNodeTemplateFromVMSS vmss inputLabels inputTaints = .error e) ↔
      vmss.sku.bind ComputeSku.name = none ∨ vmss.location = none) ∧
    (∀ t, buildNodeTemplateFromVMSS vmss inputLabels inputTaints = .ok t →
      vmss.sku.bind ComputeSku.name = some t.skuName ∧
      vmss.location = some t.location ∧
      (vmss.zones = none → t.zones = [])) := by
  unfold buildNodeTemplateFromVMSS
  rcases hsku : vmss.sku with _ | sk
  · simp [hsku]
  · rcases hn : sk.name with _ | skn
    · simp [hsku, hn]
    · rcases hloc : vmss.location with _ | loc
      · simp [hsku, hn, hloc]
      · refine ⟨by simp [hsku, hn, hloc], ?_⟩
        intro t ht
        simp only [hsku, hn, hloc, Except.ok.injEq] at ht
        subst ht
        refine ⟨by simp [hsku, hn], by simp [hloc], ?_⟩
        intro hz
        simp [hz]

/-- Witness for C5: a SKU-less VMSS is rejected, and a complete VMSS with
absent zones yields its SKU name, location and an empty zone list. -/
theorem c5_build_node_template_from_vmss_witness :
    (∃ e, buildNodeTemplateFromVMSS
        { name := some "v", sku := none, location := some "westus", zones := none,
          tags := [], virtualMachineProfile := none } [] "" = .error e) ∧
    (({ name := some "v", sku := some { name := some "Standard_D2" },
        location := some "westus", zones := none, tags := [],
        virtualMachineProfile := none } : VMSS).sku.bind ComputeSku.name =
        some "Standard_D2" ∧
      some "westus" = some "westus" ∧ True) := by
  constructor
  · exact (c5_build_node_template_from_vmss
      { name := some "v", sku := none, location := some "westus", zones := none,
        tags := [], virtualMachineProfile := none } [] "").1.mpr (Or.inl rfl)
  · have h := (c5_build_node_template_from_vmss
      { name := some "v", sku := some { name := some "Standard_D2" },
        location := some "westus", zones := none, tags := [],
        virtualMachineProfile := none } [] "").2
      { skuName := "Standard_D2", location := "westus", zones := [],
        instanceOS := "linux", vmPoolNodeTemplate := none,
        vmssNodeTemplate := some
          { inputLabels := [], inputTaints := "", osDisk := none, tags := [] } }
      rfl
    exact ⟨h.1, h.2.1.symm ▸ rfl, trivial⟩

/-! ## C2: error and crash behaviour of buildNodeFromTemplate -/

/-- C2 (code bug): the claim's error condition is exactly right for the
executions that return — `buildNodeFromTemplate` returns an error iff the
instance type cannot be resolved or both sub-templates are missing (first
conjunct) — but its "in every other case it returns a non-nil node and a
nil error … rather than crashing" is false.  The three tag extractors
dereference `*string` tag values with no nil check
(`result[label] = *tagValue`, `r.MatchString(*tagValue)` and
`resource.ParseQuantity(*tagValue)` in azure_template.go), so a scale set
carrying a nil-valued tag makes the process panic even though the
instance type resolves and a VMSS sub-template is present: on
`templNilTag` the panic-aware model returns `none` (third conjunct) while
no error is returned either (fourth conjunct), contradicting the claimed
dichotomy.  The second conjunct ties the models together: whenever no
panic occurs, the checked builder returns exactly the total model's
value. -/
theorem c2_nil_tag_value_crashes_builder :
    (∀ (env : AzureEnv) (g : String) (t : NodeTemplate)
        (dyn st : Except String InstanceType) (eD eL : Bool) (r z : Nat),
      (∃ e, buildNodeFromTemplate env g t dyn st eD eL r z = .error e) ↔
        ((∃ e, st = .error e) ∧ (eD = true → ∃ e, dyn = .error e)) ∨
        (t.vmssNodeTemplate = none ∧ t.vmPoolNodeTemplate = none)) ∧
    (∀ (env : AzureEnv) (g : String) (t : NodeTemplate)
        (dyn st : Except String InstanceType) (eD eL : Bool) (r z : Nat)
        (res : Except String Node),
      buildNodeFromTemplateChecked env g t dyn st eD eL r z = some res →
        res = buildNodeFromTemplate env g t dyn st eD eL r z) ∧
    buildNodeFromTemplateChecked envW "ng" templNilTag (.error "dyn") (.ok instW)
        false false 0 0 = none ∧
    (∀ e, buildNodeFromTemplate envW "ng" templNilTag (.error "dyn") (.ok instW)
        false false 0 0 ≠ .error e) := by
  have hx : ("x" : String).data = ['x'] := rfl
  have hpL : isPre envW.nodeLabelTagName.data ['x'] = false := by decide
  have hssL : splitOnSub envW.nodeLabelTagName.data ['x'] = [['x']] := by
    simp only [splitOnSub, hpL, Bool.false_eq_true, if_false]
  have hspL : goSplitStr envW.nodeLabelTagName "x" = ["x"] := by
    unfold goSplitStr
    rw [if_neg (by decide), hx, hssL]
    decide
  have hpR : isPre envW.nodeResourcesTagName.data ['x'] = false := by decide
  have hssR : splitOnSub envW.nodeResourcesTagName.data ['x'] = [['x']] := by
    simp only [splitOnSub, hpR, Bool.false_eq_true, if_false]
  have hspR : goSplitStr envW.nodeResourcesTagName "x" = ["x"] := by
    unfold goSplitStr
    rw [if_neg (by decide), hx, hssR]
    decide
  have hlabC : extractLabelsFromTagsChecked envW.nodeLabelTagName [("x", none)] =
      some [] := by
    unfold extractLabelsFromTagsChecked
    rw [List.foldl_cons, List.foldl_nil, Option.some_bind]
    dsimp only
    rw [hspL]
  have hallocC : extractAllocatableResourcesFromScaleSetChecked envW [("x", none)] =
      some [] := by
    unfold extractAllocatableResourcesFromScaleSetChecked
    rw [List.foldl_cons, List.foldl_nil, Option.some_bind]
    dsimp only
    rw [hspR]
  have htaintC : extractTaintsFromTagsChecked envW.nodeTaintTagName [("x", none)] =
      none := rfl
  refine ⟨?_, ?_, ?_, ?_⟩
  · intro env g t dyn st eD eL r z
    unfold buildNodeFromTemplate resolvedInstanceType
    rcases hv : t.vmssNodeTemplate with _ | vt <;>
      rcases hp : t.vmPoolNodeTemplate with _ | vp <;>
        cases eD <;>
          rcases hd : dyn with d | d <;>
            rcases hs : st with s | s <;>
              simp [hv, hp]
  · intro env g t dyn st eD eL r z res h
    unfold buildNodeFromTemplateChecked at h
    unfold buildNodeFromTemplate
    rcases hres : resolvedInstanceType eD dyn st with e | it <;> rw [hres] at h
    · exact (Option.some.inj h).symm
    · dsimp only at h
      rcases hv : t.vmssNodeTemplate with _ | vt <;> rw [hv] at h <;> dsimp only at h
      · rcases hp : t.vmPoolNodeTemplate with _ | vp <;> rw [hp] at h
        · exact (Option.some.inj h).symm
        · exact (Option.some.inj h).symm
      · unfold processVMSSTemplateChecked at h
        rcases hL : (if vt.inputLabels.length > 0 then some ([] : List (String × String))
            else extractLabelsFromTagsChecked env.nodeLabelTagName vt.tags) with _ | L <;>
          rw [hL] at h <;>
        rcases hA : extractAllocatableResourcesFromScaleSetChecked env vt.tags
            with _ | A <;>
          rw [hA] at h <;>
        rcases hTt : (if vt.inputTaints ≠ "" then some ([] : List Taint)
            else extractTaintsFromTagsChecked env.nodeTaintTagName vt.tags) with _ | T <;>
          rw [hTt] at h <;>
        dsimp only at h <;>
        first
          | exact (Option.some.inj h).symm
          | exact absurd h (by simp)
  · unfold buildNodeFromTemplateChecked
    rw [show resolvedInstanceType false (Except.error "dyn") (Except.ok instW) =
        Except.ok instW from rfl]
    dsimp only [templNilTag]
    unfold processVMSSTemplateChecked
    rw [if_neg (by decide : ¬ ([] : List (String × String)).length > 0),
        if_neg (by decide : ¬ ("" : String) ≠ ""), hlabC, hallocC, htaintC]
    rfl
  · intro e h
    simp [buildNodeFromTemplate, templNilTag, resolvedInstanceType] at h

/-- Witness for C2: the builder reports an error when both sub-templates
are missing, and on a nil-free template the panic-aware model returns
exactly the total model's node. -/
theorem c2_nil_tag_value_crashes_builder_witness :
    (∃ e, buildNodeFromTemplate envW "ng" templNoSub (.error "dyn") (.error "static")
        true false 0 0 = .error e) ∧
    (Except.ok nodeW : Except String Node) =
      buildNodeFromTemplate envW "ng" templW (.error "dyn") (.ok instW)
        false false 7 1 :=
  ⟨(c2_nil_tag_value_crashes_builder.1 envW "ng" templNoSub (.error "dyn")
      (.error "static") true false 0 0).mpr (Or.inr ⟨rfl, rfl⟩),
   c2_nil_tag_value_crashes_builder.2.1 envW "ng" templW (.error "dyn") (.ok instW)
     false false 7 1 (.ok nodeW) rfl⟩

/-! ## C6: spec taints take precedence over tag taints -/

/-- C6: when the VMSS sub-template carries a non-empty `InputTaints`
string, the processed node's taints are exactly those parsed from it and
the scale set's tags contribute nothing; the tags are consulted only when
`InputTaints` is empty. -/
theorem c6_input_taints_take_precedence (env : AzureEnv)
    (template : NodeTemplate) (vt : VMSSNodeTemplate) (nodeName : String)
    (node : Node) (eLbl : Bool) (z : Nat) :
    (vt.inputTaints ≠ "" →
      (processVMSSTemplate env template vt nodeName node eLbl z).taints =
        extractTaintsFromSpecString vt.inputTaints) ∧
    (vt.inputTaints = "" →
      (processVMSSTemplate env template vt nodeName node eLbl z).taints =
        extractTaintsFromTags env.nodeTaintTagName vt.tags) := by
  constructor <;> intro h <;> simp [processVMSSTemplate, h]

/-- Witness for C6: a concrete template whose spec taints win over a
conflicting tag taint. -/
theorem c6_input_taints_take_precedence_witness :
    (processVMSSTemplate envW templW
      { inputLabels := [], inputTaints := "dedicated=foo:NoSchedule",
        tags := [("k8s.io_cluster-autoscaler_node-template_taint_group",
                  some "bar:NoExecute")],
        osDisk := none }
      "n" nodeW false 0).taints =
      extractTaintsFromSpecString "dedicated=foo:NoSchedule" :=
  (c6_input_taints_take_precedence envW templW
    { inputLabels := [], inputTaints := "dedicated=foo:NoSchedule",
      tags := [("k8s.io_cluster-autoscaler_node-template_taint_group",
                some "bar:NoExecute")],
      osDisk := none }
    "n" nodeW false 0).1 (by decide)

/-! ## C8: allocatable equals capacity on every built node -/

theorem setCapacityBoth_alloc_eq (n : Node) (k : String) (v : Int)
    (h : n.allocatable = n.capacity) :
    (setCapacityBoth n k v).allocatable = (setCapacityBoth n k v).capacity := by
  simp [setCapacityBoth, h]

theorem foldSetCap_alloc_eq (m : List (String × Int)) (n : Node)
    (h : n.allocatable = n.capacity) :
    (m.foldl (fun a kv => setCapacityBoth a kv.1 kv.2) n).allocatable =
    (m.foldl (fun a kv => setCapacityBoth a kv.1 kv.2) n).capacity := by
  induction m generalizing n with
  | nil => exact h
  | cons kv rest ih => exact ih _ (setCapacityBoth_alloc_eq _ _ _ h)

theorem processVMSSTemplate_alloc_eq (env : AzureEnv) (template : NodeTemplate)
    (vt : VMSSNodeTemplate) (nodeName : String) (node : Node) (eLbl : Bool)
    (z : Nat) (h : node.allocatable = node.capacity) :
    (processVMSSTemplate env template vt nodeName node eLbl z).allocatable =
    (processVMSSTemplate env template vt nodeName node eLbl z).capacity := by
  unfold processVMSSTemplate
  dsimp only
  apply foldSetCap_alloc_eq
  rcases vt.osDisk with _ | od
  · exact h
  · dsimp only
    rcases od.diskSizeGB with _ | g
    · exact h
    · exact setCapacityBoth_alloc_eq _ _ _ h

/-- C8: every node successfully returned by `buildNodeFromTemplate` has
`Status.Allocatable` equal to `Status.Capacity`: the two fields are
assigned the same map and every later capacity write goes through it. -/
theorem c8_allocatable_equals_capacity (env : AzureEnv) (nodeGroupName : String)
    (template : NodeTemplate)
    (dynamicResult staticResult : Except String InstanceType)
    (eDyn eLbl : Bool) (r z : Nat) (n : Node)
    (h : buildNodeFromTemplate env nodeGroupName template dynamicResult
        staticResult eDyn eLbl r z = .ok n) :
    n.allocatable = n.capacity := by
  unfold buildNodeFromTemplate at h
  rcases hres : resolvedInstanceType eDyn dynamicResult staticResult with e | it <;>
    rw [hres] at h
  · exact absurd h (by simp)
  · dsimp only at h
    rcases hv : template.vmssNodeTemplate with _ | vt <;> rw [hv] at h
    · rcases hp : template.vmPoolNodeTemplate with _ | vp <;> rw [hp] at h
      · exact absurd h (by simp)
      · simp only [Except.ok.injEq] at h
        subst h
        rfl
    · simp only [Except.ok.injEq] at h
      subst h
      exact processVMSSTemplate_alloc_eq _ _ _ _ _ _ _ rfl

/-- Witness for C8 on a concretely built node. -/
theorem c8_allocatable_equals_capacity_witness :
    nodeW.allocatable = nodeW.capacity :=
  c8_allocatable_equals_capacity envW "ng" templW (.error "dyn") (.ok instW)
    false false 7 1 nodeW rfl

/-! ## C4: exact integer capacity arithmetic -/

theorem rlGet_rlSet_same (l : List (String × Int)) (k : String) (v : Int) :
    rlGet (rlSet l k v) k = some v := by
  induction l with
  | nil => simp [rlSet, rlGet]
  | cons kv rest ih =>
    rcases kv with ⟨k', v'⟩
    by_cases h : k' = k
    · simp [rlSet, rlGet, h]
    · simp [rlSet, rlGet, h, ih]

theorem rlGet_rlSet_ne (l : List (String × Int)) (k' k : String) (v : Int)
    (h : k' ≠ k) : rlGet (rlSet l k' v) k = rlGet l k := by
  induction l with
  | nil => simp [rlSet, rlGet, h]
  | cons kv rest ih =>
    rcases kv with ⟨k0, v0⟩
    by_cases h0 : k0 = k'
    · simp [rlSet, rlGet, h0, h]
    · simp only [rlSet, if_neg h0]
      by_cases h1 : k0 = k <;> simp [rlGet, h1, ih]

theorem rlGet_foldSet_ne (m : List (String × Int)) (l : List (String × Int))
    (k : String) (h : ∀ kv ∈ m, kv.1 ≠ k) :
    rlGet (m.foldl (fun a kv => rlSet a kv.1 kv.2) l) k = rlGet l k := by
  induction m generalizing l with
  | nil => rfl
  | cons kv rest ih =>
    rw [List.foldl_cons, ih _ (fun x hx => h x (List.mem_cons_of_mem _ hx))]
    exact rlGet_rlSet_ne _ _ _ _ (h kv (List.mem_cons_self _ _))

theorem foldSetCap_capacity (m : List (String × Int)) (n : Node) :
    (m.foldl (fun a kv => setCapacityBoth a kv.1 kv.2) n).capacity =
    m.foldl (fun l kv => rlSet l kv.1 kv.2) n.capacity := by
  induction m generalizing n with
  | nil => rfl
  | cons kv rest ih =>
    rw [List.foldl_cons, List.foldl_cons, ih]
    rfl

theorem processVMSSTemplate_capacity (env : AzureEnv) (template : NodeTemplate)
    (vt : VMSSNodeTemplate) (nodeName : String) (node : Node) (eLbl : Bool)
    (z : Nat) :
    (processVMSSTemplate env template vt nodeName node eLbl z).capacity =
    (extractAllocatableResourcesFromScaleSet env vt.tags).foldl
      (fun l kv => rlSet l kv.1 kv.2)
      (match vt.osDisk with
       | some od =>
         match od.diskSizeGB with
         | some g => rlSet node.capacity "ephemeral-storage" (wrap64 (g * 1073741824))
         | none => node.capacity
       | none => node.capacity) := by
  unfold processVMSSTemplate
  dsimp only
  rw [foldSetCap_capacity]
  congr 1
  rcases vt.osDisk with _ | od
  · rfl
  · dsimp only
    rcases od.diskSizeGB with _ | g <;> rfl

theorem processVMPoolTemplate_capacity (template : NodeTemplate)
    (vp : VMPoolNodeTemplate) (nodeName : String) (node : Node) (z : Nat) :
    (processVMPoolTemplate template vp nodeName node z).capacity = node.capacity :=
  rfl

/-- C4: the memory capacity of a built node is exactly
`memoryMb * 1024 * 1024` bytes for the resolved instance type, and the
ephemeral-storage capacity written by `processVMSSTemplate` for a present
OS-disk size is exactly `DiskSizeGB * 1024 * 1024 * 1024` bytes — pure
`int64` arithmetic with no floating-point rounding (stated for quantities
in the `int64`/`int32` ranges of the source and with no tag-driven
override of the same resource name). -/
theorem c4_exact_integer_capacity_arithmetic :
    (∀ (env : AzureEnv) (ng : String) (template : NodeTemplate)
        (dyn stat : Except String InstanceType) (eDyn eLbl : Bool) (r z : Nat)
        (n : Node) (it : InstanceType),
      buildNodeFromTemplate env ng template dyn stat eDyn eLbl r z = .ok n →
      resolvedInstanceType eDyn dyn stat = .ok it →
      0 ≤ it.memoryMb → it.memoryMb < 2 ^ 43 →
      (∀ vt, template.vmssNodeTemplate = some vt →
        ∀ kv ∈ extractAllocatableResourcesFromScaleSet env vt.tags,
          kv.1 ≠ "memory") →
      rlGet n.capacity "memory" = some (it.memoryMb * 1048576)) ∧
    (∀ (env : AzureEnv) (template : NodeTemplate) (vt : VMSSNodeTemplate)
        (nodeName : String) (node : Node) (eLbl : Bool) (z : Nat)
        (od : OSDisk) (g : Int),
      vt.osDisk = some od → od.diskSizeGB = some g →
      -(2 ^ 31) ≤ g → g < 2 ^ 31 →
      (∀ kv ∈ extractAllocatableResourcesFromScaleSet env vt.tags,
        kv.1 ≠ "ephemeral-storage") →
      rlGet (processVMSSTemplate env template vt nodeName node eLbl z).capacity
          "ephemeral-storage" = some (g * 1073741824)) := by
  have hp63 : (2 : Int) ^ 63 = 9223372036854775808 := by norm_num
  constructor
  · intro env ng template dyn stat eDyn eLbl r z n it hb hr hm0 hm1 hno
    have hp43 : (2 : Int) ^ 43 = 8796093022208 := by norm_num
    rw [hp43] at hm1
    have hw : wrap64 (it.memoryMb * 1048576) = it.memoryMb * 1048576 := by
      apply wrap64_eq <;> rw [hp63] <;> omega
    unfold buildNodeFromTemplate at hb
    rw [hr] at hb
    dsimp only at hb
    rcases hv : template.vmssNodeTemplate with _ | vt <;> rw [hv] at hb
    · rcases hp : template.vmPoolNodeTemplate with _ | vp <;> rw [hp] at hb
      · exact absurd hb (by simp)
      · simp only [Except.ok.injEq] at hb
        subst hb
        rw [processVMPoolTemplate_capacity]
        show rlGet (rlSet _ "memory" (wrap64 (it.memoryMb * 1048576))) "memory" = _
        rw [rlGet_rlSet_same, hw]
    · simp only [Except.ok.injEq] at hb
      subst hb
      rw [processVMSSTemplate_capacity]
      rw [rlGet_foldSet_ne _ _ _ (hno vt hv)]
      rcases vt.osDisk with _ | od
      · show rlGet (rlSet _ "memory" (wrap64 (it.memoryMb * 1048576))) "memory" = _
        rw [rlGet_rlSet_same, hw]
      · dsimp only
        rcases od.diskSizeGB with _ | g
        · show rlGet (rlSet _ "memory" (wrap64 (it.memoryMb * 1048576))) "memory" = _
          rw [rlGet_rlSet_same, hw]
        · rw [rlGet_rlSet_ne _ _ _ _ (by decide)]
          show rlGet (rlSet _ "memory" (wrap64 (it.memoryMb * 1048576))) "memory" = _
          rw [rlGet_rlSet_same, hw]
  · intro env template vt nodeName node eLbl z od g hod hg hg0 hg1 hno
    have hp31 : (2 : Int) ^ 31 = 2147483648 := by norm_num
    rw [hp31] at hg0 hg1
    rw [processVMSSTemplate_capacity, rlGet_foldSet_ne _ _ _ hno, hod]
    dsimp only
    rw [hg, rlGet_rlSet_same]
    congr 1
    apply wrap64_eq <;> rw [hp63] <;> omega

/-- Witness for C4: 8192 MB of memory become exactly 8589934592 bytes and a
30 GB OS disk becomes exactly 32212254720 bytes on concrete inputs. -/
theorem c4_exact_integer_capacity_arithmetic_witness :
    rlGet nodeW.capacity "memory" = some (8192 * 1048576) ∧
    rlGet (processVMSSTemplate envW templW
        { inputLabels := [], inputTaints := "", tags := [],
          osDisk := some { diffDiskOption := none, storageAccountType := none,
                           diskSizeGB := some 30 } }
        "n" nodeW false 0).capacity "ephemeral-storage" = some (30 * 1073741824) :=
  ⟨c4_exact_integer_capacity_arithmetic.1 envW "ng" templW (.error "dyn")
      (.ok instW) false false 7 1 nodeW instW rfl rfl (by decide) (by decide)
      (fun vt hvt kv hkv => by
        cases hvt
        exact absurd hkv (by simp [extractAllocatableResourcesFromScaleSet])),
   c4_exact_integer_capacity_arithmetic.2 envW templW
      { inputLabels := [], inputTaints := "", tags := [],
        osDisk := some { diffDiskOption := none, storageAccountType := none,
                         diskSizeGB := some 30 } }
      "n" nodeW false 0
      { diffDiskOption := none, storageAccountType := none, diskSizeGB := some 30 }
      30 rfl rfl (by decide) (by decide)
      (fun kv hkv => absurd hkv (by simp [extractAllocatableResourcesFromScaleSet]))⟩

/-! ## C3: constructTaintFromString -/

theorem isPre_iff (pat : List Char) : ∀ l, isPre pat l = true ↔ ∃ t, pat ++ t = l := by
  induction pat with
  | nil =>
    intro l
    simp [isPre]
  | cons p ps ih =>
    intro l
    cases l with
    | nil =>
      constructor
      · intro h
        exact absurd h (by simp [isPre])
      · rintro ⟨t, ht⟩
        exact absurd ht (by simp)
    | cons x xs =>
      rw [show isPre (p :: ps) (x :: xs) = (decide (p = x) && isPre ps xs) from rfl]
      simp only [Bool.and_eq_true, decide_eq_true_eq, ih]
      constructor
      · rintro ⟨rfl, t, rfl⟩
        exact ⟨t, rfl⟩
      · rintro ⟨t, ht⟩
        injection ht with h1 h2
        exact ⟨h1, t, h2⟩

theorem containsSub_iff (pat : List Char) :
    ∀ l, containsSub pat l = true ↔ ∃ a b, l = a ++ pat ++ b := by
  intro l
  induction l with
  | nil =>
    simp only [containsSub, List.isEmpty_iff]
    constructor
    · rintro rfl
      exact ⟨[], [], rfl⟩
    · rintro ⟨a, b, h⟩
      rcases List.append_eq_nil.mp (List.append_eq_nil.mp h.symm).1 with ⟨_, hp⟩
      exact hp
  | cons x xs ih =>
    rw [show containsSub pat (x :: xs) = (isPre pat (x :: xs) || containsSub pat xs)
      from rfl]
    simp only [Bool.or_eq_true, isPre_iff, ih]
    constructor
    · rintro (⟨t, ht⟩ | ⟨a, b, hab⟩)
      · exact ⟨[], t, by rw [← ht]; rfl⟩
      · exact ⟨x :: a, b, by rw [hab]; rfl⟩
    · rintro ⟨a, b, hab⟩
      cases a with
      | nil =>
        exact Or.inl ⟨b, by simpa using hab.symm⟩
      | cons a0 as =>
        rw [List.cons_append, List.cons_append] at hab
        injection hab with h1 h2
        exact Or.inr ⟨as, b, h2⟩

theorem taintRegexMatches_iff (v : List Char) :
    taintRegexMatches v = true ↔
      ∃ pre eff post, eff ∈ allowedTaintEffects ∧
        v = pre ++ ':' :: String.data eff ++ post := by
  unfold taintRegexMatches
  simp only [Bool.or_eq_true, containsSub_iff]
  constructor
  · rintro ((⟨a, b, h⟩ | ⟨a, b, h⟩) | ⟨a, b, h⟩)
    · exact ⟨a, "NoSchedule", b, by decide, by simpa using h⟩
    · exact ⟨a, "NoExecute", b, by decide, by simpa using h⟩
    · exact ⟨a, "PreferNoSchedule", b, by decide, by simpa using h⟩
  · rintro ⟨pre, eff, post, heff, h⟩
    rcases (by simpa [allowedTaintEffects] using heff :
        eff = "NoSchedule" ∨ eff = "NoExecute" ∨ eff = "PreferNoSchedule") with
      rfl | rfl | rfl
    · exact Or.inl (Or.inl ⟨pre, post, by simpa using h⟩)
    · exact Or.inl (Or.inr ⟨pre, post, by simpa using h⟩)
    · exact Or.inr ⟨pre, post, by simpa using h⟩

/-- C3 counterexample: the Go regular expression is unanchored, so the
taint string `"k=v:NoScheduleXYZ"` — whose effect part `"NoScheduleXYZ"`
is not one of the three recognized effects — is nevertheless accepted,
contradicting the claim that only the exact form `<value>:<effect>` with a
recognized effect is translated. -/
theorem c3_counterexample_trailing_garbage :
    constructTaintFromString "k=v:NoScheduleXYZ" =
      (true, { key := "k", value := "v", effect := "NoScheduleXYZ" }) ∧
    "NoScheduleXYZ" ∉ allowedTaintEffects := by
  constructor
  · rfl
  · decide

/-- C3 (amended): `constructTaintFromString s` returns `(true, taint)` if
and only if `s` splits on `=` into exactly two parts and the second part
*contains* `:` immediately followed by one of NoSchedule, NoExecute,
PreferNoSchedule (the regular expression is unanchored, so trailing text
is allowed); in that case the taint's key is the first part, its value is
the second part up to its first colon and its effect is everything after
that first colon, and in every other case it returns `(false, zero taint)`. -/
theorem c3_construct_taint_from_string_amended (s : String) :
    ((constructTaintFromString s).1 = true ↔
      (goSplit '=' s).length = 2 ∧
      ∃ pre eff post, eff ∈ allowedTaintEffects ∧
        ((goSplit '=' s).getD 1 "").data = pre ++ ':' :: String.data eff ++ post) ∧
    ((constructTaintFromString s).1 = true →
      (constructTaintFromString s).2 =
        { key := (goSplit '=' s).getD 0 "",
          value := ⟨((goSplit '=' s).getD 1 "").data.takeWhile (fun c => c ≠ ':')⟩,
          effect :=
            ⟨(((goSplit '=' s).getD 1 "").data.dropWhile (fun c => c ≠ ':')).drop 1⟩ }) ∧
    ((constructTaintFromString s).1 = false →
      (constructTaintFromString s).2 = { key := "", value := "", effect := "" }) := by
  rcases hsplit : goSplit '=' s with _ | ⟨k, rest⟩
  · simp [constructTaintFromString, hsplit]
  · rcases rest with _ | ⟨v, rest2⟩
    · simp [constructTaintFromString, hsplit]
    · rcases rest2 with _ | ⟨w, rest3⟩
      · by_cases hre : taintRegexMatches v.data = true
        · refine ⟨?_, ?_, ?_⟩
          · simp only [constructTaintFromString, hsplit, if_pos hre]
            exact iff_of_true trivial ⟨rfl, (taintRegexMatches_iff v.data).mp hre⟩
          · intro _
            simp only [constructTaintFromString, hsplit, if_pos hre]
            rfl
          · intro hfalse
            simp only [constructTaintFromString, hsplit, if_pos hre] at hfalse
            exact absurd hfalse (by decide)
        · refine ⟨?_, ?_, ?_⟩
          · simp only [constructTaintFromString, hsplit, if_neg hre]
            refine iff_of_false (by simp) ?_
            rintro ⟨_, pre, eff, post, heff, hform⟩
            exact hre ((taintRegexMatches_iff v.data).mpr ⟨pre, eff, post, heff, hform⟩)
          · intro htrue
            simp only [constructTaintFromString, hsplit, if_neg hre] at htrue
            exact absurd htrue (by decide)
          · intro _
            simp only [constructTaintFromString, hsplit, if_neg hre]
      · simp [constructTaintFromString, hsplit]

/-- Witness for the amended C3 at a concrete well-formed taint string. -/
theorem c3_construct_taint_from_string_amended_witness :
    (constructTaintFromString "dedicated=foo:NoSchedule").1 = true ∧
    (constructTaintFromString "dedicated=foo:NoSchedule").2 =
      { key := "dedicated", value := "foo", effect := "NoSchedule" } :=
  ⟨(c3_construct_taint_from_string_amended "dedicated=foo:NoSchedule").1.mpr
      ⟨by decide, "foo".data, "NoSchedule", [], by decide, by decide⟩,
   (c3_construct_taint_from_string_amended "dedicated=foo:NoSchedule").2.1
      (by decide)⟩

/-! ## C9: duplicate insensitivity of extractTaintsFromSpecString -/

theorem splitOnChar_ne_nil (c : Char) (l : List Char) : splitOnChar c l ≠ [] := by
  cases l with
  | nil => simp [splitOnChar]
  | cons x xs =>
    rw [splitOnChar]
    by_cases h : x = c
    · simp [h]
    · rw [if_neg h]
      cases hs : splitOnChar c xs <;> simp

theorem splitOnChar_pieces (c : Char) (l : List Char) :
    ∀ p ∈ splitOnChar c l, c ∉ p := by
  induction l with
  | nil =>
    intro p hp
    simp only [splitOnChar, List.mem_singleton] at hp
    subst hp
    simp
  | cons x xs ih =>
    intro p hp
    rw [splitOnChar] at hp
    by_cases h : x = c
    · rw [if_pos h] at hp
      rcases List.mem_cons.mp hp with rfl | hp'
      · simp
      · exact ih p hp'
    · rw [if_neg h] at hp
      cases hs : splitOnChar c xs with
      | nil => exact absurd hs (splitOnChar_ne_nil c xs)
      | cons y ys =>
        rw [hs] at hp
        rcases List.mem_cons.mp hp with rfl | hp'
        · intro hc
          rcases List.mem_cons.mp hc with rfl | hc'
          · exact h rfl
          · exact ih y (hs ▸ List.mem_cons_self y ys) hc'
        · exact ih p (hs ▸ List.mem_cons_of_mem y hp')

theorem splitOnChar_of_not_mem (c : Char) (p : List Char) (hp : c ∉ p) :
    splitOnChar c p = [p] := by
  induction p with
  | nil => rfl
  | cons x xs ih =>
    have hx : ¬ x = c := fun h => hp (h ▸ List.mem_cons_self x xs)
    rw [splitOnChar, if_neg hx, ih (fun hc => hp (List.mem_cons_of_mem x hc))]

theorem splitOnChar_append_sep (c : Char) (p rest : List Char) (hp : c ∉ p) :
    splitOnChar c (p ++ c :: rest) = p :: splitOnChar c rest := by
  induction p with
  | nil =>
    rw [List.nil_append, splitOnChar, if_pos rfl]
  | cons x xs ih =>
    have hx : ¬ x = c := fun h => hp (h ▸ List.mem_cons_self x xs)
    rw [List.cons_append, splitOnChar, if_neg hx,
      ih (fun hc => hp (List.mem_cons_of_mem x hc))]

theorem splitOnChar_joinChar (c : Char) :
    ∀ L, L ≠ [] → (∀ p ∈ L, c ∉ p) → splitOnChar c (joinChar c L) = L
  | [], h, _ => absurd rfl h
  | [p], _, hp => by
    rw [show joinChar c [p] = p from rfl]
    exact splitOnChar_of_not_mem c p (hp p (List.mem_singleton_self p))
  | p :: q :: rest, _, hp => by
    rw [show joinChar c (p :: q :: rest) = p ++ c :: joinChar c (q :: rest) from rfl]
    rw [splitOnChar_append_sep c _ _ (hp p (List.mem_cons_self p (q :: rest)))]
    rw [splitOnChar_joinChar c (q :: rest) (List.cons_ne_nil q rest)
      (fun x hx => hp x (List.mem_cons_of_mem p hx))]

theorem dedupFirstAux_subset (seen : List String) (l : List String) :
    ∀ x ∈ dedupFirstAux seen l, x ∈ l := by
  induction l generalizing seen with
  | nil =>
    intro x hx
    exact absurd hx (by simp [dedupFirstAux])
  | cons y ys ih =>
    intro x hx
    rw [dedupFirstAux] at hx
    by_cases h : y ∈ seen
    · rw [if_pos h] at hx
      exact List.mem_cons_of_mem y (ih seen x hx)
    · rw [if_neg h] at hx
      rcases List.mem_cons.mp hx with rfl | hx'
      · exact List.mem_cons_self x ys
      · exact List.mem_cons_of_mem y (ih (y :: seen) x hx')

theorem extractTaintsAux_dedup (l : List String) :
    ∀ seen, extractTaintsAux l seen = extractTaintsAux (dedupFirstAux seen l) seen := by
  induction l with
  | nil => intro seen; rfl
  | cons x xs ih =>
    intro seen
    rw [extractTaintsAux, dedupFirstAux]
    by_cases h : x ∈ seen
    · rw [if_pos h, if_pos h]
      exact ih seen
    · rw [if_neg h, if_neg h, extractTaintsAux, if_neg h]
      rcases hvt : (constructTaintFromString x).1 with _ | _
      · rw [ih (x :: seen)]
      · rw [ih (x :: seen)]

theorem goSplit_ne_nil (c : Char) (s : String) : goSplit c s ≠ [] := by
  unfold goSplit
  intro h
  exact splitOnChar_ne_nil c s.data (List.map_eq_nil_iff.mp h)

theorem dedupFirst_ne_nil (l : List String) (h : l ≠ []) : dedupFirst l ≠ [] := by
  cases l with
  | nil => exact absurd rfl h
  | cons x xs => simp [dedupFirst, dedupFirstAux]

theorem goSplit_goJoin (c : Char) (D : List String) (hne : D ≠ [])
    (hfree : ∀ p ∈ D, c ∉ p.data) : goSplit c (goJoin c D) = D := by
  unfold goSplit goJoin
  rw [show (String.mk (joinChar c (D.map String.data))).data =
      joinChar c (D.map String.data) from rfl]
  rw [splitOnChar_joinChar c (D.map String.data)
    (fun h => hne (List.map_eq_nil_iff.mp h))
    (fun p hp => by
      rcases List.mem_map.mp hp with ⟨x, hx, rfl⟩
      exact hfree x hx)]
  rw [List.map_map]
  exact (List.map_congr_left (fun x _ => rfl)).trans (List.map_id D)

/-- C9: `extractTaintsFromSpecString` is duplicate-insensitive — parsing a
comma-separated taints string equals parsing the string in which only the
first occurrence of each comma-separated segment is kept, in
first-occurrence order (the `dedupMap` in the loop skips repeated
segments). -/
theorem c9_extract_taints_duplicate_insensitive (s : String) :
    extractTaintsFromSpecString s =
      extractTaintsFromSpecString (goJoin ',' (dedupFirst (goSplit ',' s))) := by
  unfold extractTaintsFromSpecString
  rw [goSplit_goJoin ',' (dedupFirst (goSplit ',' s))
    (dedupFirst_ne_nil _ (goSplit_ne_nil ',' s))
    (fun p hp => by
      have hmem : p ∈ goSplit ',' s := dedupFirstAux_subset [] _ p hp
      rcases List.mem_map.mp hmem with ⟨piece, hpiece, rfl⟩
      exact splitOnChar_pieces ',' s.data piece hpiece)]
  exact extractTaintsAux_dedup (goSplit ',' s) []

/-! ## C1: determinism of buildNodeFromTemplate modulo the random draws -/

theorem notSpecial_legacyPoolNameTag : legacyPoolNameTag ∉ specialLabelKeys := by decide

theorem notSpecial_poolNameTag : poolNameTag ∉ specialLabelKeys := by decide

theorem notSpecial_archBeta : labelArchBeta ∉ specialLabelKeys := by decide

theorem notSpecial_archStable : labelArchStable ∉ specialLabelKeys := by decide

theorem notSpecial_osBeta : labelOSBeta ∉ specialLabelKeys := by decide

theorem notSpecial_osStable : labelOSStable ∉ specialLabelKeys := by decide

theorem notSpecial_instanceType : labelInstanceType ∉ specialLabelKeys := by decide

theorem notSpecial_instanceTypeStable : labelInstanceTypeStable ∉ specialLabelKeys := by
  decide

theorem notSpecial_zoneRegion : labelZoneRegion ∉ specialLabelKeys := by decide

theorem notSpecial_topologyRegion : labelTopologyRegion ∉ specialLabelKeys := by decide

theorem notSpecial_agentPoolKey : agentPoolNodeLabelKey ∉ specialLabelKeys := by decide

theorem special_zoneFailureDomain : labelZoneFailureDomain ∈ specialLabelKeys := by decide

theorem special_topologyZone : labelTopologyZone ∈ specialLabelKeys := by decide

theorem special_diskTopology : azureDiskTopologyKey ∈ specialLabelKeys := by decide

theorem special_hostname : labelHostname ∈ specialLabelKeys := by decide

theorem maskL_mapSet (l : List (String × String)) (k v : String) :
    maskL (mapSet l k v) =
      mapSet (maskL l) k (if k ∈ specialLabelKeys then "" else v) := by
  induction l with
  | nil => rfl
  | cons kv rest ih =>
    rcases kv with ⟨k', v'⟩
    by_cases h : k' = k
    · subst h
      simp [mapSet, maskL]
    · simp only [mapSet, if_neg h, maskL, List.map_cons]
      rw [show maskL (mapSet rest k v) = List.map _ (mapSet rest k v) from rfl] at ih
      rw [ih]
      rfl

theorem maskL_buildGenericLabels (template : NodeTemplate) (n1 n2 : String)
    (z1 z2 : Nat) :
    maskL (buildGenericLabels template n1 z1) =
      maskL (buildGenericLabels template n2 z2) := by
  unfold buildGenericLabels
  by_cases hz : template.zones.length > 0
  · simp only [if_pos hz, maskL_mapSet, special_zoneFailureDomain, special_topologyZone,
      special_diskTopology, special_hostname, notSpecial_archBeta, notSpecial_archStable,
      notSpecial_osBeta, notSpecial_osStable, notSpecial_instanceType,
      notSpecial_instanceTypeStable, notSpecial_zoneRegion, notSpecial_topologyRegion,
      if_true, if_false, ite_true, ite_false]
  · simp only [if_neg hz, maskL_mapSet, special_zoneFailureDomain, special_topologyZone,
      special_diskTopology, special_hostname, notSpecial_archBeta, notSpecial_archStable,
      notSpecial_osBeta, notSpecial_osStable, notSpecial_instanceType,
      notSpecial_instanceTypeStable, notSpecial_zoneRegion, notSpecial_topologyRegion,
      if_true, if_false, ite_true, ite_false]

theorem foldSetCap_allocatable (m : List (String × Int)) (n : Node) :
    (m.foldl (fun a kv => setCapacityBoth a kv.1 kv.2) n).allocatable =
    m.foldl (fun l kv => rlSet l kv.1 kv.2) n.allocatable := by
  induction m generalizing n with
  | nil => rfl
  | cons kv rest ih =>
    rw [List.foldl_cons, List.foldl_cons, ih]
    rfl

theorem processVMSSTemplate_allocatable (env : AzureEnv) (template : NodeTemplate)
    (vt : VMSSNodeTemplate) (nodeName : String) (node : Node) (eLbl : Bool)
    (z : Nat) :
    (processVMSSTemplate env template vt nodeName node eLbl z).allocatable =
    (extractAllocatableResourcesFromScaleSet env vt.tags).foldl
      (fun l kv => rlSet l kv.1 kv.2)
      (match vt.osDisk with
       | some od =>
         match od.diskSizeGB with
         | some g => rlSet node.allocatable "ephemeral-storage" (wrap64 (g * 1073741824))
         | none => node.allocatable
       | none => node.allocatable) := by
  unfold processVMSSTemplate
  dsimp only
  rw [foldSetCap_allocatable]
  congr 1
  rcases vt.osDisk with _ | od
  · rfl
  · dsimp only
    rcases od.diskSizeGB with _ | g <;> rfl

theorem processVMSSTemplate_labels (env : AzureEnv) (template : NodeTemplate)
    (vt : VMSSNodeTemplate) (nodeName : String) (node : Node) (eLbl : Bool)
    (z : Nat) :
    (processVMSSTemplate env template vt nodeName node eLbl z).labels =
      JoinStringMaps
        (JoinStringMaps
          (vt.tags.foldl (fun acc kv => mapSet acc kv.1 (kv.2.getD "")) node.labels)
          (buildGenericLabels template nodeName z))
        (if eLbl then
          predictionLabels env template.skuName vt
            (JoinStringMaps
              (vt.tags.foldl (fun acc kv => mapSet acc kv.1 (kv.2.getD "")) node.labels)
              (buildGenericLabels template nodeName z))
            (if vt.inputLabels.length > 0 then vt.inputLabels
             else extractLabelsFromTags env.nodeLabelTagName vt.tags)
         else
          (if vt.inputLabels.length > 0 then vt.inputLabels
           else extractLabelsFromTags env.nodeLabelTagName vt.tags)) :=
  rfl

theorem processVMSSTemplate_taints (env : AzureEnv) (template : NodeTemplate)
    (vt : VMSSNodeTemplate) (nodeName : String) (node : Node) (eLbl : Bool)
    (z : Nat) :
    (processVMSSTemplate env template vt nodeName node eLbl z).taints =
      (if vt.inputTaints ≠ "" then extractTaintsFromSpecString vt.inputTaints
       else extractTaintsFromTags env.nodeTaintTagName vt.tags) :=
  rfl

/-- C1 counterexample: `buildNodeFromTemplate` draws `rand.Int63()` for the
node name and `rand.Intn` for the zone labels, so two calls with identical
template, node-group name and configuration flags return different nodes:
the names and the zone labels differ between draws. -/
theorem c1_counterexample_randomness :
    buildNodeFromTemplate envW "ng" templW (.error "dyn") (.ok instW)
        false false 0 0 ≠
      buildNodeFromTemplate envW "ng" templW (.error "dyn") (.ok instW)
        false false 1 1 ∧
    (buildNodeFromTemplate envW "ng" templW (.error "dyn") (.ok instW)
        false false 0 0).toOption.map Node.name ≠
      (buildNodeFromTemplate envW "ng" templW (.error "dyn") (.ok instW)
        false false 1 1).toOption.map Node.name ∧
    (buildNodeFromTemplate envW "ng" templW (.error "dyn") (.ok instW)
        false false 0 0).toOption.map
          (fun n => mapGetD n.labels labelTopologyZone "") ≠
      (buildNodeFromTemplate envW "ng" templW (.error "dyn") (.ok instW)
        false false 1 1).toOption.map
          (fun n => mapGetD n.labels labelTopologyZone "") := by
  refine ⟨?_, ?_, ?_⟩
  · intro h
    have hn := congrArg (fun r => r.toOption.map Node.name) h
    exact absurd hn (by decide)
  · decide
  · decide

theorem mapFind_mapSet (l : List (String × String)) (k v k' : String) :
    mapFind (mapSet l k v) k' = if k = k' then some v else mapFind l k' := by
  induction l with
  | nil =>
    simp [mapSet, mapFind]
  | cons kv rest ih =>
    rcases kv with ⟨k1, v1⟩
    by_cases h1 : k1 = k
    · subst h1
      by_cases h2 : k1 = k' <;> simp [mapSet, mapFind, h2]
    · simp only [mapSet, if_neg h1, mapFind]
      by_cases h2 : k1 = k'
      · subst h2
        rw [if_pos rfl, if_neg (fun h => h1 h.symm), if_pos rfl]
      · rw [if_neg h2, if_neg h2, ih]

theorem mapGetD_eq_mapFind (l : List (String × String)) (k d : String) :
    mapGetD l k d = (mapFind l k).getD d := by
  induction l with
  | nil => rfl
  | cons kv rest ih =>
    rcases kv with ⟨k1, v1⟩
    by_cases h : k1 = k <;> simp [mapGetD, mapFind, h, ih]

theorem rlGet_rlSet (l : List (String × Int)) (k : String) (v : Int) (k' : String) :
    rlGet (rlSet l k v) k' = if k = k' then some v else rlGet l k' := by
  by_cases h : k = k'
  · subst h
    rw [if_pos rfl, rlGet_rlSet_same]
  · rw [if_neg h, rlGet_rlSet_ne l k k' v h]

theorem lastVal_mem {α β : Type} (g : String × α → β) :
    ∀ (m : List (String × α)) (k : String) (v : β),
      lastVal g m k = some v → k ∈ m.map Prod.fst := by
  intro m
  induction m with
  | nil =>
    intro k v h
    exact absurd h (by simp [lastVal])
  | cons kv rest ih =>
    intro k v h
    rcases hl : lastVal g rest k with _ | w
    · simp only [lastVal, hl] at h
      by_cases hk : kv.1 = k
      · simp [hk.symm]
      · rw [if_neg hk] at h
        exact absurd h (by simp)
    · exact List.mem_cons_of_mem _ (ih k w hl)

theorem keysNodup_nil {α : Type} : keysNodup ([] : List (String × α)) := by
  simp [keysNodup]

theorem mapSet_keys (l : List (String × String)) (k v : String) :
    (mapSet l k v).map Prod.fst =
      if k ∈ l.map Prod.fst then l.map Prod.fst else l.map Prod.fst ++ [k] := by
  induction l with
  | nil => simp [mapSet]
  | cons kv rest ih =>
    rcases kv with ⟨k1, v1⟩
    by_cases h1 : k1 = k
    · subst h1
      simp [mapSet]
    · simp only [mapSet, if_neg h1, List.map_cons, ih, List.mem_cons]
      by_cases hm : k ∈ rest.map Prod.fst
      · rw [if_pos hm, if_pos (Or.inr hm)]
      · rw [if_neg hm, if_neg ?hcond, List.cons_append]
        case hcond =>
          rintro (h | h)
          · exact h1 h.symm
          · exact hm h

theorem keysNodup_mapSet (l : List (String × String)) (k v : String)
    (h : keysNodup l) : keysNodup (mapSet l k v) := by
  rw [keysNodup, mapSet_keys]
  by_cases hm : k ∈ l.map Prod.fst
  · rw [if_pos hm]
    exact h
  · rw [if_neg hm, List.nodup_append]
    exact ⟨h, List.nodup_singleton k, by
      intro a ha hak
      rw [List.mem_singleton] at hak
      exact hm (hak ▸ ha)⟩

theorem keysNodup_foldSet {α : Type} (g : String × α → String) :
    ∀ (tags : List (String × α)) (l : List (String × String)), keysNodup l →
      keysNodup (tags.foldl (fun acc kv => mapSet acc kv.1 (g kv)) l) := by
  intro tags
  induction tags with
  | nil => intro l h; exact h
  | cons kv rest ih =>
    intro l h
    rw [List.foldl_cons]
    exact ih _ (keysNodup_mapSet _ _ _ h)

theorem rlSet_keys (l : List (String × Int)) (k : String) (v : Int) :
    (rlSet l k v).map Prod.fst =
      if k ∈ l.map Prod.fst then l.map Prod.fst else l.map Prod.fst ++ [k] := by
  induction l with
  | nil => simp [rlSet]
  | cons kv rest ih =>
    rcases kv with ⟨k1, v1⟩
    by_cases h1 : k1 = k
    · subst h1
      simp [rlSet]
    · simp only [rlSet, if_neg h1, List.map_cons, ih, List.mem_cons]
      by_cases hm : k ∈ rest.map Prod.fst
      · rw [if_pos hm, if_pos (Or.inr hm)]
      · rw [if_neg hm, if_neg ?hc, List.cons_append]
        case hc =>
          rintro (h | h)
          · exact h1 h.symm
          · exact hm h

theorem keysNodup_rlSet (l : List (String × Int)) (k : String) (v : Int)
    (h : keysNodup l) : keysNodup (rlSet l k v) := by
  rw [keysNodup, rlSet_keys]
  by_cases hm : k ∈ l.map Prod.fst
  · rw [if_pos hm]
    exact h
  · rw [if_neg hm, List.nodup_append]
    exact ⟨h, List.nodup_singleton k, by
      intro a ha hak
      rw [List.mem_singleton] at hak
      exact hm (hak ▸ ha)⟩

theorem keysNodup_foldRlSet {α : Type} (g : String × α → Int) :
    ∀ (tags : List (String × α)) (l : List (String × Int)), keysNodup l →
      keysNodup (tags.foldl (fun acc kv => rlSet acc kv.1 (g kv)) l) := by
  intro tags
  induction tags with
  | nil => intro l h; exact h
  | cons kv rest ih =>
    intro l h
    rw [List.foldl_cons]
    exact ih _ (keysNodup_rlSet _ _ _ h)

theorem keysNodup_buildGenericLabels (template : NodeTemplate) (nodeName : String)
    (z : Nat) : keysNodup (buildGenericLabels template nodeName z) := by
  unfold buildGenericLabels
  dsimp only
  by_cases hz : template.zones.length > 0
  · rw [if_pos hz]
    repeat apply keysNodup_mapSet
    exact keysNodup_nil
  · rw [if_neg hz]
    repeat apply keysNodup_mapSet
    exact keysNodup_nil

theorem mapFind_foldSet {α : Type} (g : String × α → String) :
    ∀ (tags : List (String × α)) (l : List (String × String)) (k : String),
      mapFind (tags.foldl (fun acc kv => mapSet acc kv.1 (g kv)) l) k =
        match lastVal g tags k with
        | some v => some v
        | none => mapFind l k := by
  intro tags
  induction tags with
  | nil => intro l k; rfl
  | cons kv rest ih =>
    intro l k
    rw [List.foldl_cons, ih]
    simp only [lastVal]
    rcases hl : lastVal g rest k with _ | v
    · rw [mapFind_mapSet]
      by_cases hk : kv.1 = k
      · simp [hk]
      · simp [hk]
    · rfl

theorem rlGet_foldSet {α : Type} (g : String × α → Int) :
    ∀ (tags : List (String × α)) (l : List (String × Int)) (k : String),
      rlGet (tags.foldl (fun acc kv => rlSet acc kv.1 (g kv)) l) k =
        match lastVal g tags k with
        | some v => some v
        | none => rlGet l k := by
  intro tags
  induction tags with
  | nil => intro l k; rfl
  | cons kv rest ih =>
    intro l k
    rw [List.foldl_cons, ih]
    simp only [lastVal]
    rcases hl : lastVal g rest k with _ | v
    · rw [rlGet_rlSet]
      by_cases hk : kv.1 = k
      · simp [hk]
      · simp [hk]
    · rfl

theorem lastVal_perm {α β : Type} (g : String × α → β) {t1 t2 : List (String × α)}
    (h : t1.Perm t2) :
    keysNodup t1 → ∀ k, lastVal g t1 k = lastVal g t2 k := by
  induction h with
  | nil => intro _ k; rfl
  | cons x h ih =>
    intro hnd k
    have hnd' : keysNodup _ := (List.nodup_cons.mp hnd).2
    simp only [lastVal]
    rw [ih hnd' k]
  | swap x y l =>
    intro hnd k
    have hxy : y.1 ≠ x.1 := by
      have := (List.nodup_cons.mp hnd).1
      intro h
      exact this (h ▸ List.mem_cons_self _ _)
    simp only [lastVal]
    rcases hl : lastVal g l k with _ | v
    · by_cases hx : x.1 = k <;> by_cases hy : y.1 = k
      · exact absurd (hy.trans hx.symm) hxy
      · simp [hx, hy]
      · simp [hx, hy]
      · simp [hx, hy]
    · rfl
  | trans h1 h2 ih1 ih2 =>
    intro hnd k
    rw [ih1 hnd k, ih2 ((h1.map Prod.fst).nodup hnd) k]

theorem lastVal_eq_mapFind :
    ∀ (m : List (String × String)), keysNodup m → ∀ k,
      lastVal (fun kv => kv.2) m k = mapFind m k := by
  intro m
  induction m with
  | nil => intro _ _; rfl
  | cons kv rest ih =>
    intro hnd k
    rcases kv with ⟨k1, v1⟩
    have hnd' : keysNodup rest := (List.nodup_cons.mp hnd).2
    have hni : k1 ∉ rest.map Prod.fst := (List.nodup_cons.mp hnd).1
    simp only [lastVal, mapFind]
    rcases hl : lastVal (fun kv => kv.2) rest k with _ | v
    · have hrest : mapFind rest k = none := by rw [← ih hnd' k, hl]
      rw [hrest]
    · have hrest : mapFind rest k = some v := by rw [← ih hnd' k, hl]
      have hkmem : k ∈ rest.map Prod.fst := lastVal_mem _ rest k v hl
      have hk : ¬ k1 = k := fun h => hni (h ▸ hkmem)
      rw [hrest]
      simp [hk]

theorem lastVal_eq_rlGet :
    ∀ (m : List (String × Int)), keysNodup m → ∀ k,
      lastVal (fun kv => kv.2) m k = rlGet m k := by
  intro m
  induction m with
  | nil => intro _ _; rfl
  | cons kv rest ih =>
    intro hnd k
    rcases kv with ⟨k1, v1⟩
    have hnd' : keysNodup rest := (List.nodup_cons.mp hnd).2
    have hni : k1 ∉ rest.map Prod.fst := (List.nodup_cons.mp hnd).1
    simp only [lastVal, rlGet]
    rcases hl : lastVal (fun kv => kv.2) rest k with _ | v
    · have hrest : rlGet rest k = none := by rw [← ih hnd' k, hl]
      rw [hrest]
    · have hrest : rlGet rest k = some v := by rw [← ih hnd' k, hl]
      have hkmem : k ∈ rest.map Prod.fst := lastVal_mem _ rest k v hl
      have hk : ¬ k1 = k := fun h => hni (h ▸ hkmem)
      rw [hrest]
      simp [hk]

theorem mapFind_of_maskL_eq :
    ∀ (a b : List (String × String)), maskL a = maskL b →
      ∀ k, k ∉ specialLabelKeys → mapFind a k = mapFind b k := by
  intro a
  induction a with
  | nil =>
    intro b hab k _
    cases b with
    | nil => rfl
    | cons kv rest => exact absurd hab (by simp [maskL])
  | cons kv rest ih =>
    intro b hab k hk
    cases b with
    | nil => exact absurd hab (by simp [maskL])
    | cons kv' rest' =>
      rcases kv with ⟨k1, v1⟩
      rcases kv' with ⟨k1', v1'⟩
      simp only [maskL, List.map_cons, List.cons.injEq, Prod.mk.injEq] at hab
      obtain ⟨⟨hkk, hvv⟩, htail⟩ := hab
      subst hkk
      simp only [mapFind]
      by_cases hk1 : k1 = k
      · rw [if_pos hk1, if_pos hk1]
        have hns : k1 ∉ specialLabelKeys := hk1 ▸ hk
        simpa [hns] using hvv
      · rw [if_neg hk1, if_neg hk1]
        exact ih rest' htail k hk

theorem buildGenericLabels_fields (t1 t2 : NodeTemplate) (n : String) (z : Nat)
    (h1 : t1.skuName = t2.skuName) (h2 : t1.instanceOS = t2.instanceOS)
    (h3 : t1.location = t2.location) (h4 : t1.zones = t2.zones) :
    buildGenericLabels t1 n z = buildGenericLabels t2 n z := by
  unfold buildGenericLabels
  rw [h1, h2, h3, h4]

theorem mapFind_JoinStringMaps (A m : List (String × String)) (k : String) :
    mapFind (JoinStringMaps A m) k =
      match lastVal (fun kv => kv.2) m k with
      | some v => some v
      | none =>
        match lastVal (fun kv => kv.2) A k with
        | some v => some v
        | none => none := by
  unfold JoinStringMaps insAll
  rw [mapFind_foldSet (fun kv => kv.2) m]
  rcases lastVal (fun kv => kv.2) m k with _ | v
  · rw [mapFind_foldSet (fun kv => kv.2) A]
    rfl
  · rfl

theorem extractLabelsFromTags_eq (n : String) (tags : List (String × Option String)) :
    extractLabelsFromTags n tags =
      (labelEntries n tags).foldl (fun a kv => mapSet a kv.1 kv.2) [] := by
  unfold extractLabelsFromTags labelEntries
  suffices h : ∀ (ts : List (String × Option String)) (acc : List (String × String)),
      ts.foldl
        (fun result kv =>
          match goSplitStr n kv.1 with
          | _ :: second :: _ =>
            let label := goReplaceAll "~2" "_" (goReplaceAll "_" "/" second)
            if label ≠ "" then mapSet result label (kv.2.getD "") else result
          | _ => result) acc =
      (ts.filterMap (labelEntry n)).foldl (fun a kv => mapSet a kv.1 kv.2) acc by
    exact h tags []
  intro ts
  induction ts with
  | nil => intro acc; rfl
  | cons kv rest ih =>
    intro acc
    rw [List.foldl_cons, List.filterMap_cons]
    rcases he : labelEntry n kv with _ | e
    · rw [← ih]
      unfold labelEntry at he
      rcases hs : goSplitStr n kv.1 with _ | ⟨a, _ | ⟨b, c⟩⟩ <;> rw [hs] at he <;>
        simp only at he ⊢
      by_cases hl : goReplaceAll "~2" "_" (goReplaceAll "_" "/" b) ≠ ""
      · rw [if_pos hl] at he
        exact absurd he (by simp)
      · rw [if_neg hl] at he
        rw [if_neg hl]
    · rw [List.foldl_cons, ← ih]
      unfold labelEntry at he
      rcases hs : goSplitStr n kv.1 with _ | ⟨a, _ | ⟨b, c⟩⟩ <;> rw [hs] at he <;>
        simp only at he ⊢
      · exact absurd he (by simp)
      · exact absurd he (by simp)
      · by_cases hl : goReplaceAll "~2" "_" (goReplaceAll "_" "/" b) ≠ ""
        · rw [if_pos hl] at he
          rw [if_pos hl]
          obtain rfl := (Option.some.inj he)
          rfl
        · rw [if_neg hl] at he
          exact absurd he (by simp)

theorem extractAllocatable_eq (env : AzureEnv) (tags : List (String × Option String)) :
    extractAllocatableResourcesFromScaleSet env tags =
      (allocEntries env tags).foldl (fun a kv => rlSet a kv.1 kv.2) [] := by
  unfold extractAllocatableResourcesFromScaleSet allocEntries
  suffices h : ∀ (ts : List (String × Option String)) (acc : List (String × Int)),
      ts.foldl
        (fun resources kv =>
          match goSplitStr env.nodeResourcesTagName kv.1 with
          | _ :: second :: _ =>
            if second = "" then resources
            else
              let normalizedResourceName :=
                goReplaceAll "~2" "/" (goReplaceAll "_" "/" second)
              match kv.2.bind env.parseQuantity with
              | some quantity => rlSet resources normalizedResourceName quantity
              | none => resources
          | _ => resources) acc =
      (ts.filterMap (allocEntry env)).foldl (fun a kv => rlSet a kv.1 kv.2) acc by
    exact h tags []
  intro ts
  induction ts with
  | nil => intro acc; rfl
  | cons kv rest ih =>
    intro acc
    rw [List.foldl_cons, List.filterMap_cons]
    rcases he : allocEntry env kv with _ | e
    · rw [← ih]
      unfold allocEntry at he
      rcases hs : goSplitStr env.nodeResourcesTagName kv.1 with _ | ⟨a, _ | ⟨b, c⟩⟩ <;>
        rw [hs] at he <;> simp only at he ⊢
      by_cases hb : b = ""
      · rw [if_pos hb] at he
        rw [if_pos hb]
      · rw [if_neg hb] at he
        rw [if_neg hb]
        rcases hq : kv.2.bind env.parseQuantity with _ | q <;> rw [hq] at he <;>
          first
            | rfl
            | exact absurd he (by simp)
    · rw [List.foldl_cons, ← ih]
      unfold allocEntry at he
      rcases hs : goSplitStr env.nodeResourcesTagName kv.1 with _ | ⟨a, _ | ⟨b, c⟩⟩ <;>
        rw [hs] at he <;> simp only at he ⊢
      · exact absurd he (by simp)
      · exact absurd he (by simp)
      · by_cases hb : b = ""
        · rw [if_pos hb] at he
          exact absurd he (by simp)
        · rw [if_neg hb] at he
          rw [if_neg hb]
          rcases hq : kv.2.bind env.parseQuantity with _ | q <;> rw [hq] at he
          · exact absurd he (by simp)
          · dsimp only at he
            obtain rfl := (Option.some.inj he)
            rfl

theorem extractTaintsFromTags_eq (n : String) (tags : List (String × Option String)) :
    extractTaintsFromTags n tags = tags.filterMap (taintEntry n) := by
  unfold extractTaintsFromTags
  suffices h : ∀ (ts : List (String × Option String)) (acc : List Taint),
      ts.foldl
        (fun taints kv =>
          match kv.2 with
          | none => taints
          | some tv =>
            if taintRegexMatches tv.data then
              match goSplitStr n kv.1 with
              | _ :: second :: _ =>
                if (':' : Char) ∈ tv.data then
                  let values := goSplitN2Colon tv.data
                  let taintKey := goReplaceAll "~2" "_" (goReplaceAll "_" "/" second)
                  taints ++
                    [{ key := taintKey, value := ⟨values.1⟩, effect := ⟨values.2⟩ }]
                else taints
              | _ => taints
            else taints) acc =
      acc ++ ts.filterMap (taintEntry n) by
    rw [h tags []]
    rfl
  intro ts
  induction ts with
  | nil => intro acc; simp
  | cons kv rest ih =>
    intro acc
    rw [List.foldl_cons, List.filterMap_cons]
    rcases he : taintEntry n kv with _ | t
    · rw [ih]
      unfold taintEntry at he
      rcases hv : kv.2 with _ | tv <;> rw [hv] at he <;> simp only at he ⊢
      by_cases hre : taintRegexMatches tv.data = true
      · rw [if_pos hre] at he
        rw [if_pos hre]
        rcases hs : goSplitStr n kv.1 with _ | ⟨a, _ | ⟨b, c⟩⟩ <;> rw [hs] at he <;>
          simp only at he ⊢
        by_cases hc : (':' : Char) ∈ tv.data
        · rw [if_pos hc] at he
          exact absurd he (by simp)
        · rw [if_neg hc] at he
          rw [if_neg hc]
      · rw [if_neg hre] at he
        rw [if_neg hre]
    · rw [ih]
      unfold taintEntry at he
      rcases hv : kv.2 with _ | tv <;> rw [hv] at he <;> simp only at he ⊢
      · exact absurd he (by simp)
      · by_cases hre : taintRegexMatches tv.data = true
        · rw [if_pos hre] at he
          rw [if_pos hre]
          rcases hs : goSplitStr n kv.1 with _ | ⟨a, _ | ⟨b, c⟩⟩ <;> rw [hs] at he <;>
            simp only at he ⊢
          · exact absurd he (by simp)
          · exact absurd he (by simp)
          · by_cases hc : (':' : Char) ∈ tv.data
            · rw [if_pos hc] at he
              rw [if_pos hc]
              obtain rfl := (Option.some.inj he)
              simp
            · rw [if_neg hc] at he
              exact absurd he (by simp)
        · rw [if_neg hre] at he
          exact absurd he (by simp)

/-- The taint slice read from the scale set's tags depends on the map's
iteration order only up to permutation: each tag contributes at most one
taint, independently of the others. -/
theorem extractTaintsFromTags_perm (n : String)
    {tags1 tags2 : List (String × Option String)} (h : tags1.Perm tags2) :
    (extractTaintsFromTags n tags1).Perm (extractTaintsFromTags n tags2) := by
  rw [extractTaintsFromTags_eq, extractTaintsFromTags_eq]
  exact h.filterMap (taintEntry n)

theorem keysNodup_of_perm {α : Type} {m1 m2 : List (String × α)} (h : m1.Perm m2)
    (hnd : keysNodup m1) : keysNodup m2 :=
  (h.map Prod.fst).nodup hnd

theorem JoinStringMaps_keysNodup (a b : List (String × String)) :
    keysNodup (JoinStringMaps a b) := by
  unfold JoinStringMaps insAll
  exact keysNodup_foldSet (fun kv => kv.2) b _
    (keysNodup_foldSet (fun kv => kv.2) a _ keysNodup_nil)

theorem keysNodup_extractLabelsFromTags (n : String)
    (tags : List (String × Option String)) :
    keysNodup (extractLabelsFromTags n tags) := by
  rw [extractLabelsFromTags_eq]
  exact keysNodup_foldSet (fun kv => kv.2) _ _ keysNodup_nil

theorem keysNodup_extractAllocatable (env : AzureEnv)
    (tags : List (String × Option String)) :
    keysNodup (extractAllocatableResourcesFromScaleSet env tags) := by
  rw [extractAllocatable_eq]
  exact keysNodup_foldRlSet (fun kv => kv.2) _ _ keysNodup_nil

/-- Reading a key of a two-map join only needs the two parts to agree at
that key (for maps with pairwise-distinct keys). -/
theorem JoinStringMaps_mapFind_congr {A1 A2 m1 m2 : List (String × String)}
    (hA1 : keysNodup A1) (hA2 : keysNodup A2) (hm1 : keysNodup m1)
    (hm2 : keysNodup m2) (k : String)
    (hA : mapFind A1 k = mapFind A2 k) (hm : mapFind m1 k = mapFind m2 k) :
    mapFind (JoinStringMaps A1 m1) k = mapFind (JoinStringMaps A2 m2) k := by
  rw [mapFind_JoinStringMaps, mapFind_JoinStringMaps,
      lastVal_eq_mapFind _ hm1 k, lastVal_eq_mapFind _ hm2 k, hm,
      lastVal_eq_mapFind _ hA1 k, lastVal_eq_mapFind _ hA2 k, hA]

/-- Folding the entries of the same Go map over bases that agree at `k`
yields maps that agree at `k`, whatever the iteration orders. -/
theorem foldTags_mapFind_congr {α : Type} (g : String × α → String)
    {t1 t2 : List (String × α)} (hperm : t1.Perm t2) (hnd : keysNodup t1)
    {l1 l2 : List (String × String)} (k : String)
    (hl : mapFind l1 k = mapFind l2 k) :
    mapFind (t1.foldl (fun acc kv => mapSet acc kv.1 (g kv)) l1) k =
      mapFind (t2.foldl (fun acc kv => mapSet acc kv.1 (g kv)) l2) k := by
  rw [mapFind_foldSet g t1 l1 k, mapFind_foldSet g t2 l2 k,
      lastVal_perm g hperm hnd k]
  rcases lastVal g t2 k with _ | v
  · exact hl
  · rfl

/-- The label-prediction block keeps the keys of the label map pairwise
distinct. -/
theorem keysNodup_predictionLabels (env : AzureEnv) (sku : String)
    (vt : VMSSNodeTemplate) (nl l : List (String × String))
    (h : keysNodup l) : keysNodup (predictionLabels env sku vt nl l) := by
  unfold predictionLabels
  dsimp only
  rcases vt.osDisk with _ | od
  · by_cases h1 : mapGetD nl legacyPoolNameTag "" ≠ "" <;>
      by_cases h2 : mapGetD nl poolNameTag "" ≠ "" <;>
      by_cases h4 : env.isNvidiaEnabledSKU sku = true <;>
      simp [h1, h2, h4] <;>
      (repeat apply keysNodup_mapSet) <;>
      exact h
  · rcases hsat : od.storageAccountType with _ | sat <;>
      by_cases h1 : mapGetD nl legacyPoolNameTag "" ≠ "" <;>
      by_cases h2 : mapGetD nl poolNameTag "" ≠ "" <;>
      by_cases h3 : od.diffDiskOption = some "Local" <;>
      by_cases h4 : env.isNvidiaEnabledSKU sku = true <;>
      simp [h1, h2, h3, h4, hsat] <;>
      (repeat apply keysNodup_mapSet) <;>
      exact h

/-- The label-prediction block reads its inputs only through the two pool
name tags, the OS disk and the base label map: runs that agree on those
reads produce label maps that agree at every key. -/
theorem predictionLabels_mapFind_congr (env : AzureEnv) (sku : String)
    (vt1 vt2 : VMSSNodeTemplate) (nl1 nl2 l1 l2 : List (String × String))
    (hod : vt1.osDisk = vt2.osDisk)
    (hp1 : mapGetD nl1 legacyPoolNameTag "" = mapGetD nl2 legacyPoolNameTag "")
    (hp2 : mapGetD nl1 poolNameTag "" = mapGetD nl2 poolNameTag "")
    (hl : ∀ k, mapFind l1 k = mapFind l2 k) (k : String) :
    mapFind (predictionLabels env sku vt1 nl1 l1) k =
      mapFind (predictionLabels env sku vt2 nl2 l2) k := by
  unfold predictionLabels
  dsimp only
  rw [hp1, hp2, hod]
  rcases vt2.osDisk with _ | od
  · by_cases h1 : mapGetD nl2 legacyPoolNameTag "" ≠ "" <;>
      by_cases h2 : mapGetD nl2 poolNameTag "" ≠ "" <;>
      by_cases h4 : env.isNvidiaEnabledSKU sku = true <;>
      simp [h1, h2, h4, mapFind_mapSet, hl]
  · rcases hsat : od.storageAccountType with _ | sat <;>
      by_cases h1 : mapGetD nl2 legacyPoolNameTag "" ≠ "" <;>
      by_cases h2 : mapGetD nl2 poolNameTag "" ≠ "" <;>
      by_cases h3 : od.diffDiskOption = some "Local" <;>
      by_cases h4 : env.isNvidiaEnabledSKU sku = true <;>
      simp [h1, h2, h3, h4, hsat, mapFind_mapSet, hl]

/-- Two runs of `processVMSSTemplate` over the same Go template value (the
tag and spec-label maps possibly iterated in different orders), the same
environment and flags, and node bases with equal label maps, agree on the
final label map at every key outside the randomness-dependent ones —
provided no two tag names normalize to the same label name. -/
theorem processVMSSTemplate_labels_agree (env : AzureEnv) (t1 t2 : NodeTemplate)
    (vt1 vt2 : VMSSNodeTemplate) (nm1 nm2 : String) (node1 node2 : Node)
    (eLbl : Bool) (z1 z2 : Nat)
    (hsku : t1.skuName = t2.skuName) (hos : t1.instanceOS = t2.instanceOS)
    (hloc : t1.location = t2.location) (hzones : t1.zones = t2.zones)
    (hil : vt1.inputLabels.Perm vt2.inputLabels) (hilnd : keysNodup vt1.inputLabels)
    (htags : vt1.tags.Perm vt2.tags) (htagsnd : keysNodup vt1.tags)
    (hod : vt1.osDisk = vt2.osDisk)
    (hnl : node1.labels = node2.labels) (hnlnd : keysNodup node1.labels)
    (hLabEnt : keysNodup (labelEntries env.nodeLabelTagName vt1.tags))
    (k d : String) (hk : k ∉ specialLabelKeys) :
    mapGetD (processVMSSTemplate env t1 vt1 nm1 node1 eLbl z1).labels k d =
      mapGetD (processVMSSTemplate env t2 vt2 nm2 node2 eLbl z2).labels k d := by
  have hGmask : maskL (buildGenericLabels t1 nm1 z1) =
      maskL (buildGenericLabels t2 nm2 z2) := by
    rw [buildGenericLabels_fields t1 t2 nm1 z1 hsku hos hloc hzones]
    exact maskL_buildGenericLabels t2 nm1 nm2 z1 z2
  have hG : ∀ k, k ∉ specialLabelKeys →
      mapFind (buildGenericLabels t1 nm1 z1) k =
        mapFind (buildGenericLabels t2 nm2 z2) k :=
    mapFind_of_maskL_eq _ _ hGmask
  have hnlnd2 : keysNodup node2.labels := hnl ▸ hnlnd
  have hBnd1 : keysNodup
      (vt1.tags.foldl (fun acc kv => mapSet acc kv.1 (kv.2.getD "")) node1.labels) :=
    keysNodup_foldSet (fun kv => kv.2.getD "") vt1.tags node1.labels hnlnd
  have hBnd2 : keysNodup
      (vt2.tags.foldl (fun acc kv => mapSet acc kv.1 (kv.2.getD "")) node2.labels) :=
    keysNodup_foldSet (fun kv => kv.2.getD "") vt2.tags node2.labels hnlnd2
  have hA : ∀ k, k ∉ specialLabelKeys →
      mapFind (JoinStringMaps
        (vt1.tags.foldl (fun acc kv => mapSet acc kv.1 (kv.2.getD "")) node1.labels)
        (buildGenericLabels t1 nm1 z1)) k =
      mapFind (JoinStringMaps
        (vt2.tags.foldl (fun acc kv => mapSet acc kv.1 (kv.2.getD "")) node2.labels)
        (buildGenericLabels t2 nm2 z2)) k :=
    fun k hk => JoinStringMaps_mapFind_congr hBnd1 hBnd2
      (keysNodup_buildGenericLabels t1 nm1 z1) (keysNodup_buildGenericLabels t2 nm2 z2)
      k (foldTags_mapFind_congr (fun kv => kv.2.getD "") htags htagsnd k (by rw [hnl]))
      (hG k hk)
  have hilnd2 : keysNodup vt2.inputLabels := keysNodup_of_perm hil hilnd
  have hlen : vt1.inputLabels.length = vt2.inputLabels.length := hil.length_eq
  have hpe : (labelEntries env.nodeLabelTagName vt1.tags).Perm
      (labelEntries env.nodeLabelTagName vt2.tags) :=
    htags.filterMap (labelEntry env.nodeLabelTagName)
  have hbase : ∀ k,
      mapFind (if vt1.inputLabels.length > 0 then vt1.inputLabels
        else extractLabelsFromTags env.nodeLabelTagName vt1.tags) k =
      mapFind (if vt2.inputLabels.length > 0 then vt2.inputLabels
        else extractLabelsFromTags env.nodeLabelTagName vt2.tags) k := by
    intro k
    by_cases hpos : vt1.inputLabels.length > 0
    · have hpos2 : vt2.inputLabels.length > 0 := by rw [← hlen]; exact hpos
      rw [if_pos hpos, if_pos hpos2, ← lastVal_eq_mapFind _ hilnd k,
          lastVal_perm _ hil hilnd k, lastVal_eq_mapFind _ hilnd2 k]
    · have hpos2 : ¬ vt2.inputLabels.length > 0 := by rw [← hlen]; exact hpos
      rw [if_neg hpos, if_neg hpos2, extractLabelsFromTags_eq, extractLabelsFromTags_eq,
          mapFind_foldSet (fun kv => kv.2) (labelEntries env.nodeLabelTagName vt1.tags) [] k,
          mapFind_foldSet (fun kv => kv.2) (labelEntries env.nodeLabelTagName vt2.tags) [] k,
          lastVal_perm (fun kv => kv.2) hpe hLabEnt k]
  have hbnd1 : keysNodup (if vt1.inputLabels.length > 0 then vt1.inputLabels
      else extractLabelsFromTags env.nodeLabelTagName vt1.tags) := by
    by_cases hpos : vt1.inputLabels.length > 0
    · rw [if_pos hpos]; exact hilnd
    · rw [if_neg hpos]; exact keysNodup_extractLabelsFromTags _ _
  have hbnd2 : keysNodup (if vt2.inputLabels.length > 0 then vt2.inputLabels
      else extractLabelsFromTags env.nodeLabelTagName vt2.tags) := by
    by_cases hpos : vt2.inputLabels.length > 0
    · rw [if_pos hpos]; exact hilnd2
    · rw [if_neg hpos]; exact keysNodup_extractLabelsFromTags _ _
  rw [mapGetD_eq_mapFind, mapGetD_eq_mapFind, processVMSSTemplate_labels,
      processVMSSTemplate_labels, hsku]
  refine congrArg (fun o : Option String => o.getD d) ?_
  refine JoinStringMaps_mapFind_congr (JoinStringMaps_keysNodup _ _)
    (JoinStringMaps_keysNodup _ _) ?hm1 ?hm2 k (hA k hk) ?hm
  case hm1 =>
    cases eLbl
    · exact hbnd1
    · exact keysNodup_predictionLabels _ _ _ _ _ hbnd1
  case hm2 =>
    cases eLbl
    · exact hbnd2
    · exact keysNodup_predictionLabels _ _ _ _ _ hbnd2
  case hm =>
    cases eLbl
    · exact hbase k
    · exact predictionLabels_mapFind_congr env t2.skuName vt1 vt2 _ _ _ _ hod
        (by rw [mapGetD_eq_mapFind, mapGetD_eq_mapFind,
              hA legacyPoolNameTag notSpecial_legacyPoolNameTag])
        (by rw [mapGetD_eq_mapFind, mapGetD_eq_mapFind,
              hA poolNameTag notSpecial_poolNameTag])
        hbase k

/-- Two runs of `processVMSSTemplate` over the same Go template value and
node bases with equal capacity maps agree on the final capacity at every
resource name — provided no two tag names normalize to the same resource
name. -/
theorem processVMSSTemplate_capacity_agree (env : AzureEnv) (t1 t2 : NodeTemplate)
    (vt1 vt2 : VMSSNodeTemplate) (nm1 nm2 : String) (node1 node2 : Node)
    (eLbl : Bool) (z1 z2 : Nat)
    (htags : vt1.tags.Perm vt2.tags)
    (hod : vt1.osDisk = vt2.osDisk) (hcap : node1.capacity = node2.capacity)
    (hAllocEnt : keysNodup (allocEntries env vt1.tags)) (k : String) :
    rlGet (processVMSSTemplate env t1 vt1 nm1 node1 eLbl z1).capacity k =
      rlGet (processVMSSTemplate env t2 vt2 nm2 node2 eLbl z2).capacity k := by
  have hpe : (allocEntries env vt1.tags).Perm (allocEntries env vt2.tags) :=
    htags.filterMap (allocEntry env)
  have hX : lastVal (fun kv => kv.2)
        (extractAllocatableResourcesFromScaleSet env vt1.tags) k =
      lastVal (fun kv => kv.2)
        (extractAllocatableResourcesFromScaleSet env vt2.tags) k := by
    rw [lastVal_eq_rlGet _ (keysNodup_extractAllocatable env vt1.tags) k,
        lastVal_eq_rlGet _ (keysNodup_extractAllocatable env vt2.tags) k,
        extractAllocatable_eq, extractAllocatable_eq,
        rlGet_foldSet (fun kv => kv.2) (allocEntries env vt1.tags) [] k,
        rlGet_foldSet (fun kv => kv.2) (allocEntries env vt2.tags) [] k,
        lastVal_perm (fun kv => kv.2) hpe hAllocEnt k]
  rw [processVMSSTemplate_capacity, processVMSSTemplate_capacity, hod, hcap,
      rlGet_foldSet (fun kv => kv.2)
        (extractAllocatableResourcesFromScaleSet env vt1.tags) _ k,
      rlGet_foldSet (fun kv => kv.2)
        (extractAllocatableResourcesFromScaleSet env vt2.tags) _ k,
      hX]

/-- The allocatable counterpart of `processVMSSTemplate_capacity_agree`. -/
theorem processVMSSTemplate_allocatable_agree (env : AzureEnv) (t1 t2 : NodeTemplate)
    (vt1 vt2 : VMSSNodeTemplate) (nm1 nm2 : String) (node1 node2 : Node)
    (eLbl : Bool) (z1 z2 : Nat)
    (htags : vt1.tags.Perm vt2.tags)
    (hod : vt1.osDisk = vt2.osDisk) (halloc : node1.allocatable = node2.allocatable)
    (hAllocEnt : keysNodup (allocEntries env vt1.tags)) (k : String) :
    rlGet (processVMSSTemplate env t1 vt1 nm1 node1 eLbl z1).allocatable k =
      rlGet (processVMSSTemplate env t2 vt2 nm2 node2 eLbl z2).allocatable k := by
  have hpe : (allocEntries env vt1.tags).Perm (allocEntries env vt2.tags) :=
    htags.filterMap (allocEntry env)
  have hX : lastVal (fun kv => kv.2)
        (extractAllocatableResourcesFromScaleSet env vt1.tags) k =
      lastVal (fun kv => kv.2)
        (extractAllocatableResourcesFromScaleSet env vt2.tags) k := by
    rw [lastVal_eq_rlGet _ (keysNodup_extractAllocatable env vt1.tags) k,
        lastVal_eq_rlGet _ (keysNodup_extractAllocatable env vt2.tags) k,
        extractAllocatable_eq, extractAllocatable_eq,
        rlGet_foldSet (fun kv => kv.2) (allocEntries env vt1.tags) [] k,
        rlGet_foldSet (fun kv => kv.2) (allocEntries env vt2.tags) [] k,
        lastVal_perm (fun kv => kv.2) hpe hAllocEnt k]
  rw [processVMSSTemplate_allocatable, processVMSSTemplate_allocatable, hod, halloc,
      rlGet_foldSet (fun kv => kv.2)
        (extractAllocatableResourcesFromScaleSet env vt1.tags) _ k,
      rlGet_foldSet (fun kv => kv.2)
        (extractAllocatableResourcesFromScaleSet env vt2.tags) _ k,
      hX]

/-- Two runs of `processVMSSTemplate` over the same Go template value
carry the same taints up to permutation: the spec taints are copied
verbatim, and the tag taints follow the randomized map iteration order. -/
theorem processVMSSTemplate_taints_agree (env : AzureEnv) (t1 t2 : NodeTemplate)
    (vt1 vt2 : VMSSNodeTemplate) (nm1 nm2 : String) (node1 node2 : Node)
    (eLbl : Bool) (z1 z2 : Nat)
    (hti : vt1.inputTaints = vt2.inputTaints) (htags : vt1.tags.Perm vt2.tags) :
    (processVMSSTemplate env t1 vt1 nm1 node1 eLbl z1).taints.Perm
      (processVMSSTemplate env t2 vt2 nm2 node2 eLbl z2).taints := by
  rw [processVMSSTemplate_taints, processVMSSTemplate_taints, ← hti]
  by_cases hit : vt1.inputTaints ≠ ""
  · rw [if_pos hit, if_pos hit]
  · rw [if_neg hit, if_neg hit]
    exact extractTaintsFromTags_perm _ htags

/-- Two runs of `processVMPoolTemplate` over the same Go template value
(the `Labels` map possibly iterated in different orders) and node bases
with equal label maps agree on the final label map at every key outside
the randomness-dependent ones. -/
theorem processVMPoolTemplate_labels_agree (t1 t2 : NodeTemplate)
    (vp1 vp2 : VMPoolNodeTemplate) (nm1 nm2 : String) (node1 node2 : Node)
    (z1 z2 : Nat)
    (hsku : t1.skuName = t2.skuName) (hos : t1.instanceOS = t2.instanceOS)
    (hloc : t1.location = t2.location) (hzones : t1.zones = t2.zones)
    (hvp : sameGoVMPool vp1 vp2)
    (hnl : node1.labels = node2.labels) (hnlnd : keysNodup node1.labels)
    (k d : String) (hk : k ∉ specialLabelKeys) :
    mapGetD (processVMPoolTemplate t1 vp1 nm1 node1 z1).labels k d =
      mapGetD (processVMPoolTemplate t2 vp2 nm2 node2 z2).labels k d := by
  obtain ⟨hap, hvptaints, hodt, hlab⟩ := hvp
  have hG : ∀ k, k ∉ specialLabelKeys →
      mapFind (buildGenericLabels t1 nm1 z1) k =
        mapFind (buildGenericLabels t2 nm2 z2) k :=
    mapFind_of_maskL_eq _ _ (by
      rw [buildGenericLabels_fields t1 t2 nm1 z1 hsku hos hloc hzones]
      exact maskL_buildGenericLabels t2 nm1 nm2 z1 z2)
  have hbase : ∀ k, k ∉ specialLabelKeys →
      mapFind (mapSet (buildGenericLabels t1 nm1 z1) agentPoolNodeLabelKey
        vp1.agentPoolName) k =
      mapFind (mapSet (buildGenericLabels t2 nm2 z2) agentPoolNodeLabelKey
        vp2.agentPoolName) k := by
    intro k hk
    rw [mapFind_mapSet, mapFind_mapSet, hap, hG k hk]
  have hbnd1 : keysNodup (mapSet (buildGenericLabels t1 nm1 z1)
      agentPoolNodeLabelKey vp1.agentPoolName) :=
    keysNodup_mapSet _ _ _ (keysNodup_buildGenericLabels t1 nm1 z1)
  have hbnd2 : keysNodup (mapSet (buildGenericLabels t2 nm2 z2)
      agentPoolNodeLabelKey vp2.agentPoolName) :=
    keysNodup_mapSet _ _ _ (keysNodup_buildGenericLabels t2 nm2 z2)
  rw [mapGetD_eq_mapFind, mapGetD_eq_mapFind]
  refine congrArg (fun o : Option String => o.getD d) ?_
  show mapFind (JoinStringMaps node1.labels _) k = mapFind (JoinStringMaps node2.labels _) k
  refine JoinStringMaps_mapFind_congr hnlnd (hnl ▸ hnlnd) ?hL1 ?hL2 k (by rw [hnl]) ?hm
  case hL1 =>
    rcases vp1.labels with _ | m1
    · exact hbnd1
    · exact keysNodup_foldSet (fun kv => kv.2.getD "") m1 _ hbnd1
  case hL2 =>
    rcases vp2.labels with _ | m2
    · exact hbnd2
    · exact keysNodup_foldSet (fun kv => kv.2.getD "") m2 _ hbnd2
  case hm =>
    rcases h1 : vp1.labels with _ | m1 <;> rcases h2 : vp2.labels with _ | m2 <;>
      rw [h1, h2] at hlab
    · exact hbase k hk
    · exact hlab.elim
    · exact hlab.elim
    · obtain ⟨hperm, hnd⟩ := hlab
      exact foldTags_mapFind_congr (fun kv => kv.2.getD "") hperm hnd k (hbase k hk)

/-- C1 (amended): `buildNodeFromTemplate` is deterministic apart from its
two `math/rand` draws and the randomized Go map iteration order.  For two
calls with the same environment, node-group name, configuration flags and
SKU-lookup results, over the same template value (`sameGoTemplate`: equal
fields, with the template maps listed in two arbitrary iteration orders),
and provided no two tag names normalize to the same label or resource
name, the two returned nodes agree on every label outside the
zone/hostname labels, on capacity and allocatable at every resource name,
and on the taints up to permutation; the taint order itself follows the
map iteration order only when the taints are read from the scale-set
tags — whenever the spec string supplies them (or the template is
VMPool-backed) the taint slices are exactly equal. -/
theorem c1_build_node_deterministic_modulo_draws (env : AzureEnv)
    (nodeGroupName : String) (t1 t2 : NodeTemplate)
    (dynamicResult staticResult : Except String InstanceType)
    (eDyn eLbl : Bool) (r1 z1 r2 z2 : Nat) (n1 n2 : Node)
    (hT : sameGoTemplate t1 t2)
    (hLab : ∀ vt, t1.vmssNodeTemplate = some vt →
      keysNodup (labelEntries env.nodeLabelTagName vt.tags))
    (hRes : ∀ vt, t1.vmssNodeTemplate = some vt →
      keysNodup (allocEntries env vt.tags))
    (h1 : buildNodeFromTemplate env nodeGroupName t1 dynamicResult staticResult
        eDyn eLbl r1 z1 = .ok n1)
    (h2 : buildNodeFromTemplate env nodeGroupName t2 dynamicResult staticResult
        eDyn eLbl r2 z2 = .ok n2) :
    (∀ k d, k ∉ specialLabelKeys → mapGetD n1.labels k d = mapGetD n2.labels k d) ∧
    (∀ k, rlGet n1.capacity k = rlGet n2.capacity k) ∧
    (∀ k, rlGet n1.allocatable k = rlGet n2.allocatable k) ∧
    n1.taints.Perm n2.taints ∧
    (∀ vt, t1.vmssNodeTemplate = some vt → vt.inputTaints ≠ "" →
      n1.taints = n2.taints) ∧
    (t1.vmssNodeTemplate = none → n1.taints = n2.taints) := by
  obtain ⟨hsku, hos, hloc, hzones, hvmss, hvmpool⟩ := hT
  unfold buildNodeFromTemplate at h1 h2
  rcases hres : resolvedInstanceType eDyn dynamicResult staticResult with e | it <;>
    rw [hres] at h1 h2
  · exact absurd h1 (by simp)
  · dsimp only at h1 h2
    rw [hsku] at h1
    rcases hv1 : t1.vmssNodeTemplate with _ | vt1 <;> rw [hv1] at h1 hvmss <;>
      rcases hv2 : t2.vmssNodeTemplate with _ | vt2 <;> rw [hv2] at h2 hvmss
    · -- no VMSS sub-template on either side: VMPool or error
      rcases hp1 : t1.vmPoolNodeTemplate with _ | vp1 <;> rw [hp1] at h1 hvmpool <;>
        rcases hp2 : t2.vmPoolNodeTemplate with _ | vp2 <;> rw [hp2] at h2 hvmpool
      · exact absurd h1 (by simp)
      · exact hvmpool.elim
      · exact hvmpool.elim
      · obtain rfl := (Except.ok.inj h1).symm
        obtain rfl := (Except.ok.inj h2).symm
        have htaints : vp1.taints = vp2.taints := hvmpool.2.1
        refine ⟨?_, ?_, ?_, ?_, ?_, ?_⟩
        · intro k d hk
          exact processVMPoolTemplate_labels_agree t1 t2 vp1 vp2 _ _ _ _ z1 z2
            hsku hos hloc hzones hvmpool rfl keysNodup_nil k d hk
        · intro k
          rfl
        · intro k
          rfl
        · show vp1.taints.Perm vp2.taints
          rw [htaints]
        · intro vt hvt
          exact absurd hvt (by simp)
        · intro _
          exact htaints
    · exact hvmss.elim
    · exact hvmss.elim
    · -- both templates are VMSS-backed
      obtain ⟨⟨hilperm, hilnd⟩, hti, ⟨htgperm, htgnd⟩, hod⟩ := hvmss
      obtain rfl := (Except.ok.inj h1).symm
      obtain rfl := (Except.ok.inj h2).symm
      refine ⟨?_, ?_, ?_, ?_, ?_, ?_⟩
      · intro k d hk
        exact processVMSSTemplate_labels_agree env t1 t2 vt1 vt2 _ _ _ _ eLbl z1 z2
          hsku hos hloc hzones hilperm hilnd htgperm htgnd hod rfl keysNodup_nil
          (hLab vt1 hv1) k d hk
      · intro k
        refine processVMSSTemplate_capacity_agree env t1 t2 vt1 vt2 _ _ _ _ eLbl z1 z2
          htgperm hod ?_ (hRes vt1 hv1) k
        rfl
      · intro k
        refine processVMSSTemplate_allocatable_agree env t1 t2 vt1 vt2 _ _ _ _ eLbl
          z1 z2 htgperm hod ?_ (hRes vt1 hv1) k
        rfl
      · exact processVMSSTemplate_taints_agree env t1 t2 vt1 vt2 _ _ _ _ eLbl z1 z2
          hti htgperm
      · intro vt hvt hne
        obtain rfl := Option.some.inj hvt
        rw [processVMSSTemplate_taints, processVMSSTemplate_taints, ← hti,
            if_pos hne, if_pos hne]
      · intro hcontra
        exact absurd hcontra (by simp)

/-- Witness for C1: the nodes built from `templW` with draws `(7, 1)` and
`(3, 0)` agree everywhere except the masked name, zone and hostname data. -/
theorem c1_build_node_deterministic_modulo_draws_witness :
    (∀ k d, k ∉ specialLabelKeys →
      mapGetD nodeW.labels k d = mapGetD nodeW2.labels k d) ∧
    (∀ k, rlGet nodeW.capacity k = rlGet nodeW2.capacity k) ∧
    (∀ k, rlGet nodeW.allocatable k = rlGet nodeW2.allocatable k) ∧
    nodeW.taints.Perm nodeW2.taints ∧
    (∀ vt, templW.vmssNodeTemplate = some vt → vt.inputTaints ≠ "" →
      nodeW.taints = nodeW2.taints) ∧
    (templW.vmssNodeTemplate = none → nodeW.taints = nodeW2.taints) :=
  c1_build_node_deterministic_modulo_draws envW "ng" templW templW (.error "dyn")
    (.ok instW) false false 7 1 3 0 nodeW nodeW2
    ⟨rfl, rfl, rfl, rfl,
      ⟨⟨List.Perm.refl _, keysNodup_nil⟩, rfl, ⟨List.Perm.refl _, keysNodup_nil⟩, rfl⟩,
      True.intro⟩
    (fun vt hvt => by
      obtain rfl := Option.some.inj hvt
      exact keysNodup_nil)
    (fun vt hvt => by
      obtain rfl := Option.some.inj hvt
      exact keysNodup_nil)
    rfl rfl

end Autoscaler
